import Mathlib

/-!
Verification development for the alittlebitofmoney-mcp server.

Shallow embedding of the core modules: catalog-derived tool synthesis
(dedup.ts), tool name sanitization and Jaccard similarity (utils.ts),
L402 challenge parsing and the token cache (l402.ts), the result/error
mapping layer (results.ts), the retrying HTTP client (httpClient.ts) and
the tool registry reconciliation (tools/registry.ts).

Modelling conventions:
- JavaScript strings are Lean `String`s; records are association lists.
- JSON values are the inductive `JValue`; JS truthiness checks on strings
  are modelled explicitly (empty string is falsy).
- Content hashes (`sha256Hex (stableStringify payload)`) are modelled as
  the canonical payload itself: the code uses them only for equality and
  change detection, and `stableStringify` is injective on the payload
  shapes involved, so equality of modelled signatures coincides with
  equality of the code's signatures up to SHA-256 collisions.
- Asynchronous effects (fetch, wallet payment, replay) are modelled as an
  explicit environment of outcome functions; `Math.random` jitter is an
  explicit rational-valued parameter.
-/

namespace Albom

/-- Character class of the regex `[a-z0-9_]` used by `sanitizeToolName`. -/
def isAllowedChar (c : Char) : Bool :=
  (decide ('a' ≤ c) && decide (c ≤ 'z')) ||
  (decide ('0' ≤ c) && decide (c ≤ '9')) || c == '_'

/-- Replace every maximal run of characters outside `[a-z0-9_]` by a single
underscore, implementing the regex replace `[^a-z0-9_]+` → `_`.  The boolean
tracks whether the previous character was part of a disallowed run. -/
def replaceBadRuns (prevBad : Bool) : List Char → List Char
  | [] => []
  | c :: rest =>
    if isAllowedChar c then c :: replaceBadRuns false rest
    else if prevBad then replaceBadRuns true rest
    else '_' :: replaceBadRuns true rest

/-- Strip the leading and the trailing underscore run, implementing the regex
replace of the pattern matching leading or trailing underscores with the
empty string. -/
def stripEdgeUnderscores (cs : List Char) : List Char :=
  ((cs.dropWhile (fun c => c = '_')).reverse.dropWhile (fun c => c = '_')).reverse

/-- Collapse every underscore run to a single underscore, implementing the
regex replace of two-or-more underscores with one. -/
def collapseUnderscoreRuns (prevUnderscore : Bool) : List Char → List Char
  | [] => []
  | c :: rest =>
    if c = '_' then
      if prevUnderscore then collapseUnderscoreRuns true rest
      else '_' :: collapseUnderscoreRuns true rest
    else c :: collapseUnderscoreRuns false rest

/-- JavaScript `toLowerCase`, modelled per character (all inputs in this
code base are ASCII). -/
def jsToLower (s : String) : String :=
  String.mk (s.toList.map Char.toLower)

/-- Model of `sanitizeToolName` from src/utils.ts: lowercase, replace
disallowed runs with `_`, strip edge underscores, collapse underscore runs. -/
def sanitizeToolName (input : String) : String :=
  String.mk
    (collapseUnderscoreRuns false
      (stripEdgeUnderscores
        (replaceBadRuns false ((jsToLower input).toList))))

/-- Executable check that no two consecutive characters are both
underscores. -/
def noDoubleUnderscore : List Char → Bool
  | [] => true
  | [_] => true
  | a :: b :: rest =>
    if a = '_' ∧ b = '_' then false else noDoubleUnderscore (b :: rest)

/-- Host-protocol tool name constraint as stated by the spec: only lowercase
letters, digits and single underscores, with no leading or trailing
underscore. -/
def ValidToolName (s : String) : Prop :=
  s.toList.all isAllowedChar = true ∧
  s.toList.head? ≠ some '_' ∧
  s.toList.getLast? ≠ some '_' ∧
  noDoubleUnderscore s.toList = true

instance (s : String) : Decidable (ValidToolName s) :=
  inferInstanceAs (Decidable (s.toList.all isAllowedChar = true ∧
    s.toList.head? ≠ some '_' ∧ s.toList.getLast? ≠ some '_' ∧
    noDoubleUnderscore s.toList = true))

/-- First-occurrence deduplication, the insertion-order semantics of a
JavaScript `Set` built from a list. -/
def jsSetList (seen : List String) : List String → List String
  | [] => []
  | x :: rest =>
    if seen.contains x then jsSetList seen rest
    else x :: jsSetList (x :: seen) rest

/-- Model of `modelSetJaccard` from src/utils.ts. -/
def modelSetJaccard (a b : List String) : ℚ :=
  let setA := jsSetList [] a
  let setB := jsSetList [] b
  if setA.length = 0 ∧ setB.length = 0 then 1
  else
    let inter := (setA.filter (fun v => setB.contains v)).length
    let union := (jsSetList [] (setA ++ setB)).length
    if union = 0 then 0 else (inter : ℚ) / (union : ℚ)

/-! ## Catalog data model (src/types.ts) -/

inductive ToolProfile
  | compact
  | full
deriving DecidableEq, Repr

inductive EndpointContentType
  | json
  | multipart
deriving DecidableEq, Repr

inductive PriceType
  | perModel
  | flat
deriving DecidableEq, Repr

/-- Model of `EndpointDescriptor`; the fields not consulted by the embedded
operations (price maps, argument keys, raw endpoint, per-endpoint signature)
are omitted. -/
structure EndpointDescriptor where
  apiKey : String
  apiName : String
  path : String
  method : String
  priceType : PriceType
  description : String
  contentType : EndpointContentType
  models : List String
  fileField : Option String
  family : String
deriving DecidableEq, Repr

/-- Model of `CatalogState`; only the ordered endpoint list is consumed by
the tool-synthesis and registry operations embedded here. -/
structure CatalogState where
  endpoints : List EndpointDescriptor
deriving DecidableEq, Repr

/-- Configuration fields consulted by `buildToolState` (src/config.ts). -/
structure AlbomConfig where
  toolProfile : ToolProfile
  includeModeration : Bool
  includeEmbeddings : Bool
  includeVideo : Bool
  allowRawTool : Bool
deriving DecidableEq, Repr

inductive ToolKind
  | catalogGet
  | textGenerate
  | imageGenerate
  | imageEdit
  | audioTranscribe
  | audioSpeech
  | videoGenerate
  | safetyModerate
  | embeddingCreate
  | fullEndpoint
  | rawCall
deriving DecidableEq, Repr

structure ToolAnnotationsM where
  readOnlyHint : Option Bool := none
  idempotentHint : Option Bool := none
  destructiveHint : Option Bool := none
  openWorldHint : Option Bool := none
deriving DecidableEq, Repr

/-- Model of `PlannedTool`: the discriminated union is flattened to a record
with optional routing fields (absent fields are `none`). -/
structure PlannedTool where
  kind : ToolKind
  name : String
  title : String
  description : String
  endpointPath : Option String := none
  translationEndpointPath : Option String := none
  contentType : Option EndpointContentType := none
  fileField : Option String := none
  annotations : ToolAnnotationsM := {}
deriving DecidableEq, Repr

def READ_ONLY_ANNOTATION : ToolAnnotationsM :=
  { readOnlyHint := some true, idempotentHint := some true,
    destructiveHint := some false, openWorldHint := some false }

def DEFAULT_ANNOTATION : ToolAnnotationsM :=
  { destructiveHint := some false, openWorldHint := some true }

/-! ## Dedup / tool synthesis engine (src/dedup.ts) -/

/-- Model of `isTextPath`. -/
def isTextPath (path : String) : Bool :=
  path == "/v1/responses" || path.startsWith "/v1/chat/"

/-- Model of `isDuplicateCandidate`. -/
def isDuplicateCandidate (a b : EndpointDescriptor) : Bool :=
  let sameMethod := a.method == b.method
  let sameContentType := a.contentType == b.contentType
  let jaccard := modelSetJaccard a.models b.models
  let sameFamily := a.family == b.family || (isTextPath a.path && isTextPath b.path)
  sameMethod && sameContentType && sameFamily && decide (jaccard ≥ (95 : ℚ) / 100)

/-- Model of `endpointByPath`: first POST endpoint with the given path. -/
def endpointByPath (catalog : CatalogState) (path : String) : Option EndpointDescriptor :=
  catalog.endpoints.find? (fun e => e.path == path && e.method == "POST")

/-- Model of `chooseCompactTextEndpoint`. -/
def chooseCompactTextEndpoint (catalog : CatalogState) : Option EndpointDescriptor :=
  match endpointByPath catalog "/v1/responses", endpointByPath catalog "/v1/chat/completions" with
  | none, chat => chat
  | some responses, none => some responses
  | some responses, some chat =>
    if isDuplicateCandidate chat responses then some responses
    else some responses

/-- List segment contributed by one optional endpoint lookup in
`makeCompactTools` (a conditional `tools.push`). -/
def optSegment (o : Option EndpointDescriptor) (mk : EndpointDescriptor → PlannedTool) :
    List PlannedTool :=
  match o with
  | some e => [mk e]
  | none => []

def catalogGetTool : PlannedTool :=
  { kind := .catalogGet, name := "albom_catalog_get", title := "Get ALBOM Catalog",
    description := "Get normalized ALBOM catalog data and derived tool summary.",
    annotations := READ_ONLY_ANNOTATION }

def rawCallTool : PlannedTool :=
  { kind := .rawCall, name := "albom_raw_call", title := "Raw ALBOM Call",
    description := "Raw allowlisted endpoint caller for advanced use only.",
    annotations := DEFAULT_ANNOTATION }

def compactTextTool (e : EndpointDescriptor) : PlannedTool :=
  { kind := .textGenerate, name := "albom_text_generate", title := "Text Generation",
    description := "Generate text responses via " ++ e.path ++ ".",
    endpointPath := some e.path, annotations := DEFAULT_ANNOTATION }

def compactImageGenerateTool (e : EndpointDescriptor) : PlannedTool :=
  { kind := .imageGenerate, name := "albom_image_generate", title := "Image Generation",
    description := "Generate new images from text prompts.",
    endpointPath := some e.path, annotations := DEFAULT_ANNOTATION }

def compactImageEditTool (e : EndpointDescriptor) : PlannedTool :=
  { kind := .imageEdit, name := "albom_image_edit", title := "Image Edit",
    description := "Edit an input image with prompt instructions.",
    endpointPath := some e.path, annotations := DEFAULT_ANNOTATION }

def compactAudioTranscribeTool (catalog : CatalogState) (e : EndpointDescriptor) : PlannedTool :=
  { kind := .audioTranscribe, name := "albom_audio_transcribe", title := "Audio Transcribe",
    description := "Transcribe audio. Set translate_to_english=true to route to translation.",
    endpointPath := some e.path,
    translationEndpointPath := (endpointByPath catalog "/v1/audio/translations").map (fun t => t.path),
    annotations := DEFAULT_ANNOTATION }

def compactAudioSpeechTool (e : EndpointDescriptor) : PlannedTool :=
  { kind := .audioSpeech, name := "albom_audio_speech", title := "Audio Speech",
    description := "Synthesize speech from text input.",
    endpointPath := some e.path, annotations := DEFAULT_ANNOTATION }

def compactVideoGenerateTool (e : EndpointDescriptor) : PlannedTool :=
  { kind := .videoGenerate, name := "albom_video_generate", title := "Video Generation",
    description := "Generate videos from text prompts. This endpoint can be expensive.",
    endpointPath := some e.path,
    annotations := { DEFAULT_ANNOTATION with idempotentHint := some false } }

def compactSafetyModerateTool (e : EndpointDescriptor) : PlannedTool :=
  { kind := .safetyModerate, name := "albom_safety_moderate", title := "Safety Moderate",
    description := "Classify text content with moderation models.",
    endpointPath := some e.path, annotations := READ_ONLY_ANNOTATION }

def compactEmbeddingCreateTool (e : EndpointDescriptor) : PlannedTool :=
  { kind := .embeddingCreate, name := "albom_embedding_create", title := "Embedding Create",
    description := "Generate embeddings for text input.",
    endpointPath := some e.path, annotations := READ_ONLY_ANNOTATION }

/-- Model of `makeCompactTools`: the sequence of conditional pushes is
rendered as a concatenation of segments in the same order. -/
def makeCompactTools (catalog : CatalogState) (config : AlbomConfig) : List PlannedTool :=
  [catalogGetTool]
  ++ optSegment (chooseCompactTextEndpoint catalog) compactTextTool
  ++ optSegment (endpointByPath catalog "/v1/images/generations") compactImageGenerateTool
  ++ optSegment (endpointByPath catalog "/v1/images/edits") compactImageEditTool
  ++ optSegment (endpointByPath catalog "/v1/audio/transcriptions")
      (compactAudioTranscribeTool catalog)
  ++ optSegment (endpointByPath catalog "/v1/audio/speech") compactAudioSpeechTool
  ++ (if config.includeVideo then
        optSegment (endpointByPath catalog "/v1/video/generations") compactVideoGenerateTool
      else [])
  ++ (if config.includeModeration then
        optSegment (endpointByPath catalog "/v1/moderations") compactSafetyModerateTool
      else [])
  ++ (if config.includeEmbeddings then
        optSegment (endpointByPath catalog "/v1/embeddings") compactEmbeddingCreateTool
      else [])
  ++ (if config.allowRawTool then [rawCallTool] else [])

/-- Model of `shouldIncludeFullEndpoint`. -/
def shouldIncludeFullEndpoint (endpoint : EndpointDescriptor) (config : AlbomConfig) : Bool :=
  if !config.includeVideo && endpoint.path == "/v1/video/generations" then false
  else if !config.includeModeration && endpoint.path == "/v1/moderations" then false
  else if !config.includeEmbeddings && endpoint.path == "/v1/embeddings" then false
  else true

/-- Split a character list at every occurrence of `sep`, JS `split`
semantics (leading, trailing and repeated separators yield empty pieces). -/
def splitOnChar (sep : Char) : List Char → List (List Char)
  | [] => [[]]
  | c :: rest =>
    let r := splitOnChar sep rest
    if c = sep then [] :: r
    else
      match r with
      | [] => [[c]]
      | hd :: tl => (c :: hd) :: tl

/-- JS `String.split` with a one-character separator, at the char level so
that the kernel can evaluate it. -/
def jsSplit (s : String) (sep : Char) : List String :=
  (splitOnChar sep s.toList).map String.mk

/-- Join a list of strings with a separator, the semantics of `Array.join`. -/
def joinWith (sep : String) : List String → String
  | [] => ""
  | [x] => x
  | x :: y :: rest => x ++ sep ++ joinWith sep (y :: rest)

/-- Model of `fullToolName`: join the api key with the non-empty non-v1 path
segments (split on `/`) and sanitize. -/
def fullToolName (profileApi : String) (endpointPath : String) : String :=
  let segments := (jsSplit endpointPath '/').filter (fun s => s ≠ "" && s ≠ "v1")
  sanitizeToolName (joinWith "_" (["albom", profileApi] ++ segments))

/-- The full-profile tool pushed for one endpoint, given its resolved name. -/
def fullEndpointTool (endpoint : EndpointDescriptor) (name : String) : PlannedTool :=
  { kind := .fullEndpoint, name := name,
    title := endpoint.apiName ++ " " ++ endpoint.path,
    description := endpoint.description,
    endpointPath := some endpoint.path,
    contentType := some endpoint.contentType,
    fileField := endpoint.fileField,
    annotations := DEFAULT_ANNOTATION }

/-- One step of the `makeFullTools` loop body: accumulates the tool list and
the set of used names. -/
def fullToolsStep (config : AlbomConfig) (acc : List PlannedTool × List String)
    (endpoint : EndpointDescriptor) : List PlannedTool × List String :=
  if endpoint.method ≠ "POST" then acc
  else if !shouldIncludeFullEndpoint endpoint config then acc
  else
    let name0 := fullToolName endpoint.apiKey endpoint.path
    let name :=
      if acc.2.contains name0 then sanitizeToolName (name0 ++ "_" ++ jsToLower endpoint.method)
      else name0
    (acc.1 ++ [fullEndpointTool endpoint name], acc.2 ++ [name])

/-- Model of `makeFullTools`. -/
def makeFullTools (catalog : CatalogState) (config : AlbomConfig) : List PlannedTool :=
  let start : List PlannedTool × List String := ([catalogGetTool], [catalogGetTool.name])
  let built := catalog.endpoints.foldl (fullToolsStep config) start
  built.1 ++ (if config.allowRawTool then [rawCallTool] else [])

/-- Per-tool projection hashed into the tool-state signature. -/
structure ToolSigEntry where
  kind : ToolKind
  name : String
  endpointPath : Option String
  translationEndpointPath : Option String
  contentType : Option EndpointContentType
deriving DecidableEq, Repr

/-- Model of `buildToolSignature`: the SHA-256 of the stable serialization is
modelled by the canonical payload itself (profile plus per-tool identity
fields), which the code compares only for equality. -/
def buildToolSignature (profile : ToolProfile) (tools : List PlannedTool) :
    ToolProfile × List ToolSigEntry :=
  (profile,
   tools.map (fun tool =>
     { kind := tool.kind, name := tool.name,
       endpointPath := tool.endpointPath,
       translationEndpointPath :=
         if tool.kind = .audioTranscribe then tool.translationEndpointPath else none,
       contentType := if tool.kind = .fullEndpoint then tool.contentType else none }))

structure ToolState where
  profile : ToolProfile
  tools : List PlannedTool
  signature : ToolProfile × List ToolSigEntry
deriving DecidableEq, Repr

/-- Model of `buildToolState`. -/
def buildToolState (catalog : CatalogState) (config : AlbomConfig) : ToolState :=
  let tools :=
    if config.toolProfile = .compact then makeCompactTools catalog config
    else makeFullTools catalog config
  { profile := config.toolProfile, tools := tools,
    signature := buildToolSignature config.toolProfile tools }

/-! ## JSON values and JS record helpers -/

/-- JSON-like runtime values, as produced by `parseResponseData`.  JS numbers
are modelled as integers (every number appearing in the claims is integral);
`Number.isFinite` is therefore always true on `num`. -/
inductive JValue
  | str (s : String)
  | num (n : Int)
  | bool (b : Bool)
  | null
  | arr (items : List JValue)
  | obj (fields : List (String × JValue))

/-- Property lookup on a JS object modelled as an association list. -/
def jget (fields : List (String × JValue)) (key : String) : Option JValue :=
  (fields.find? (fun kv => kv.1 = key)).map (fun kv => kv.2)

/-- Model of `isRecord`: `typeof value === "object" && value !== null`.
Arrays are objects in JS; their named-property lookups yield undefined, so an
array is modelled as a record with no fields. -/
def asRecordFields : JValue → Option (List (String × JValue))
  | .obj fields => some fields
  | .arr _ => some []
  | _ => none

/-- Model of `asString`: a string value of positive length. -/
def asString : Option JValue → Option String
  | some (.str s) => if s.length > 0 then some s else none
  | _ => none

/-- Model of `asNumber`: a finite number (finiteness is vacuous on `Int`). -/
def asNumber : Option JValue → Option Int
  | some (.num n) => some n
  | _ => none

/-- Lookup in a JS string record (headers object); keys are compared
exactly, as JS property access does. -/
def recordGet (headers : List (String × String)) (key : String) : Option String :=
  (headers.find? (fun kv => kv.1 = key)).map (fun kv => kv.2)

/-! ## L402 challenge parsing (src/l402.ts) -/

structure L402Challenge where
  macaroon : String
  invoice : String
  paymentHash : String
  amountSats : Int
deriving DecidableEq, Repr

/-- Model of `buildL402Authorization`. -/
def buildL402Authorization (macaroon preimage : String) : String :=
  "L402 " ++ macaroon ++ ":" ++ preimage

/-- Whitespace class of the regex `\s` (ASCII portion). -/
def isSpaceChar (c : Char) : Bool :=
  c == ' ' || c == '\t' || c == '\n' || c == '\r' || c == '\x0b' || c == '\x0c'

/-- Case-insensitive match of `name` at the head of `s`; on success returns
the remainder.  Implements the `/i` flag of the extraction regexes, whose
name parts are lowercase literals. -/
def dropNameCI (name : List Char) (s : List Char) : Option (List Char) :=
  match name, s with
  | [], rest => some rest
  | _ :: _, [] => none
  | n :: ns, c :: cs => if c.toLower = n then dropNameCI ns cs else none

/-- Try the quoted form at the current position: name, then a literal
equals-quote, then a capture of non-quote characters closed by a quote. -/
def matchQuotedAt (name : List Char) (s : List Char) : Option (List Char) :=
  match dropNameCI name s with
  | none => none
  | some rest =>
    match rest with
    | '=' :: '"' :: rest2 =>
      if (rest2.dropWhile (fun c => c ≠ '"')) = [] then none
      else some (rest2.takeWhile (fun c => c ≠ '"'))
    | _ => none

/-- Leftmost match of the quoted-parameter regex over the string. -/
def findQuoted (name : List Char) : List Char → Option (List Char)
  | [] => none
  | c :: rest =>
    match matchQuotedAt name (c :: rest) with
    | some cap => some cap
    | none => findQuoted name rest

/-- Try the unquoted form at the current position: name, `=`, then one or
more characters that are neither comma nor whitespace. -/
def matchUnquotedAt (name : List Char) (s : List Char) : Option (List Char) :=
  match dropNameCI name s with
  | none => none
  | some ('=' :: rest2) =>
    let cap := rest2.takeWhile (fun c => c ≠ ',' && !isSpaceChar c)
    if cap = [] then none else some cap
  | some _ => none

/-- Leftmost match of the unquoted-parameter regex over the string. -/
def findUnquoted (name : List Char) : List Char → Option (List Char)
  | [] => none
  | c :: rest =>
    match matchUnquotedAt name (c :: rest) with
    | some cap => some cap
    | none => findUnquoted name rest

/-- Model of `extractParam`: the quoted regex is consulted first and its
capture is used only when non-empty (JS truthiness of the capture group);
otherwise the unquoted regex is consulted. -/
def extractParam (paramStr : String) (name : String) : Option String :=
  let fallback :=
    match findUnquoted name.toList paramStr.toList with
    | some cap => some (String.mk cap)
    | none => none
  match findQuoted name.toList paramStr.toList with
  | some cap => if cap ≠ [] then some (String.mk cap) else fallback
  | none => fallback

/-- Match of the anchored scheme regex: case-insensitive `L402` followed by
one or more whitespace characters; returns the parameter remainder. -/
def matchL402Scheme (s : List Char) : Option (List Char) :=
  match s with
  | c1 :: c2 :: c3 :: c4 :: rest =>
    if c1.toLower = 'l' ∧ c2 = '4' ∧ c3 = '0' ∧ c4 = '2' then
      match rest with
      | [] => none
      | d :: _ => if isSpaceChar d then some (rest.dropWhile isSpaceChar) else none
    else none
  | _ => none

/-- Model of `parseL402Challenge` from src/l402.ts. -/
def parseL402Challenge (headers : List (String × String)) (body : JValue) :
    Option L402Challenge :=
  match recordGet headers "www-authenticate" with
  | none => none
  | some wwwAuth =>
    if wwwAuth = "" then none
    else
      match matchL402Scheme wwwAuth.toList with
      | none => none
      | some paramChars =>
        let paramStr := String.mk paramChars
        match (extractParam paramStr "macaroon").orElse (fun _ => extractParam paramStr "token") with
        | none => none
        | some macaroon0 =>
          if macaroon0 = "" then none
          else
            let macaroon :=
              if macaroon0.toList.getLast? = some ':' then String.mk macaroon0.toList.dropLast
              else macaroon0
            let bodyFields := (asRecordFields body).getD []
            let invoice? :=
              (extractParam paramStr "invoice").orElse
                (fun _ => asString (jget bodyFields "invoice"))
            let paymentHash := (asString (jget bodyFields "payment_hash")).getD ""
            let amountSats := (asNumber (jget bodyFields "amount_sats")).getD 0
            match invoice? with
            | none => none
            | some invoice =>
              some { macaroon := macaroon, invoice := invoice,
                     paymentHash := paymentHash, amountSats := amountSats }

/-! ## L402 token cache (src/l402.ts) -/

structure L402CacheEntry where
  macaroon : String
  invoice : String
  paymentHash : String
  amountSats : Int
  expiresAt : Nat
deriving DecidableEq, Repr

/-- JS `Map.set` semantics: an existing key is updated in place keeping its
insertion position; a fresh key is appended. -/
def mapSet (entries : List (String × L402CacheEntry)) (k : String) (v : L402CacheEntry) :
    List (String × L402CacheEntry) :=
  match entries with
  | [] => [(k, v)]
  | (k', v') :: rest => if k' = k then (k, v) :: rest else (k', v') :: mapSet rest k v

/-- JS `Map.delete` semantics. -/
def mapDelete (entries : List (String × L402CacheEntry)) (k : String) :
    List (String × L402CacheEntry) :=
  match entries with
  | [] => []
  | (k', v') :: rest => if k' = k then rest else (k', v') :: mapDelete rest k

/-- Model of `L402TokenCache` state; time is milliseconds as a natural. -/
structure L402TokenCache where
  entries : List (String × L402CacheEntry)
  maxEntries : Nat
  defaultTtlMs : Nat
deriving DecidableEq, Repr

/-- Model of `purgeExpired`: removes every entry with `now > expiresAt`. -/
def purgeExpired (entries : List (String × L402CacheEntry)) (now : Nat) :
    List (String × L402CacheEntry) :=
  entries.filter (fun kv => !decide (now > kv.2.expiresAt))

/-- Deletion of the first (oldest) key, as the eviction step does via
`entries.keys().next().value`; on an empty map that value is undefined and
nothing is deleted. -/
def evictOldest (entries : List (String × L402CacheEntry)) :
    List (String × L402CacheEntry) :=
  match entries with
  | [] => entries
  | (k, _) :: _ => mapDelete entries k

/-- Model of `L402TokenCache.set`: purge when at capacity, then evict the
oldest entry by insertion order if still at capacity, then insert. -/
def cacheSet (c : L402TokenCache) (challenge : L402Challenge) (ttlMs : Option Nat)
    (now : Nat) : L402TokenCache :=
  let entries1 :=
    if c.entries.length ≥ c.maxEntries then purgeExpired c.entries now else c.entries
  let entries2 :=
    if entries1.length ≥ c.maxEntries then evictOldest entries1 else entries1
  let newEntry : L402CacheEntry :=
    { macaroon := challenge.macaroon, invoice := challenge.invoice,
      paymentHash := challenge.paymentHash, amountSats := challenge.amountSats,
      expiresAt := now + ttlMs.getD c.defaultTtlMs }
  { c with entries := mapSet entries2 challenge.paymentHash newEntry }

/-- Model of `L402TokenCache.get`: an expired entry is deleted and reported
as absent. -/
def cacheGet (c : L402TokenCache) (paymentHash : String) (now : Nat) :
    Option L402CacheEntry × L402TokenCache :=
  match recordGetEntry c.entries paymentHash with
  | none => (none, c)
  | some entry =>
    if now > entry.expiresAt then
      (none, { c with entries := mapDelete c.entries paymentHash })
    else (some entry, c)
where
  recordGetEntry (entries : List (String × L402CacheEntry)) (k : String) :
      Option L402CacheEntry :=
    (entries.find? (fun kv => kv.1 = k)).map (fun kv => kv.2)

/-! ## Result mapping (src/results.ts) -/

/-- Model of `mapErrorCode` from src/results.ts. -/
def mapErrorCode (status : Nat) (data : JValue) : String :=
  match asRecordFields data with
  | some fields =>
    let nestedError :=
      match jget fields "error" with
      | some v => asRecordFields v
      | none => none
    let directStatus := asString (jget fields "status")
    if status = 402 ∧ directStatus = some "payment_required" then "payment_required"
    else if status = 402 ∧ directStatus = some "insufficient_balance" then "insufficient_balance"
    else
      (((nestedError.bind (fun ef => asString (jget ef "code"))).orElse
          (fun _ => asString (jget fields "code"))).orElse
          (fun _ => directStatus)).getD
        (if status = 401 then "invalid_token" else "upstream_error")
  | none =>
    if status = 401 then "invalid_token"
    else if status = 402 then "payment_required"
    else if status = 404 then "endpoint_not_found"
    else if status = 413 then "request_too_large"
    else if status = 429 then "rate_limited"
    else if status ≥ 500 then "upstream_unavailable"
    else "upstream_error"

/-- Model of `pickMessage`. -/
def pickMessage (data : JValue) (fallback : String) : String :=
  match data with
  | .str s => if s.length > 0 then s else fallback
  | _ =>
    match asRecordFields data with
    | none => fallback
    | some fields =>
      let nestedError :=
        match jget fields "error" with
        | some v => asRecordFields v
        | none => none
      (((nestedError.bind (fun ef => asString (jget ef "message"))).orElse
          (fun _ => asString (jget fields "message"))).orElse
          (fun _ => asString (jget fields "status"))).getD fallback

structure AlbomErrorPayload where
  code : String
  message : String
deriving DecidableEq, Repr

structure AlbomError where
  ok : Bool
  status : Nat
  endpoint : String
  model : Option String
  error : AlbomErrorPayload
deriving DecidableEq, Repr

/-- Model of `buildErrorResult`; the payment-metadata spread is omitted (the
claims concern only the code and message fields). -/
def buildErrorResult (endpoint : String) (status : Nat) (data : JValue)
    (model : Option String) : AlbomError :=
  let code := mapErrorCode status data
  let defaultMessage := "Upstream request failed with status " ++ toString status
  { ok := false, status := status, endpoint := endpoint, model := model,
    error := { code := code, message := pickMessage data defaultMessage } }

/-! ## HTTP execution client (src/httpClient.ts) -/

/-- Model of `isRetryableStatus`. -/
def isRetryableStatus (status : Nat) : Bool :=
  status == 429 || status ≥ 500

/-- Normalized response triple as produced by the client (headers already
lowercased by `headersToRecord`, body already content-type sniffed by
`parseResponseData`). -/
structure HttpResp where
  status : Nat
  headers : List (String × String)
  data : JValue

structure RuntimeError where
  code : String
  status : Nat
deriving DecidableEq, Repr

/-- Outcome of one `fetchWithTimeout` call: a normalized response, or a
thrown error (`isAbort` distinguishes the timeout `AbortError`). -/
inductive FetchOutcome
  | ok (resp : HttpResp)
  | exn (isAbort : Bool)

/-- Runtime error raised when the final attempt throws. -/
def networkErrorOf (isAbort : Bool) : RuntimeError :=
  if isAbort then { code := "upstream_timeout", status := 504 }
  else { code := "network_error", status := 503 }

def internalRetryError : RuntimeError :=
  { code := "internal_retry_error", status := 500 }

def missingBearerTokenError : RuntimeError :=
  { code := "missing_bearer_token", status := 401 }

/-- Client construction options (src/httpClient.ts); the auto-pay handler is
abstracted to its presence, its behaviour living in `HttpEnv`. -/
structure HttpClientOptions where
  baseUrl : String
  bearerToken : Option String
  l402Handler : Bool
  timeoutMs : Nat
  maxRetries : Nat

/-- Environment abstracting the asynchronous effects of one call: the
outcome of each retry-loop fetch, the auto-pay handler (`none` models a
throw), the outcome of the single L402 replay fetch (keyed by the
authorization header it is sent with), and the `Math.random` draws. -/
structure HttpEnv where
  attempts : Nat → FetchOutcome
  pay : L402Challenge → Option String
  replay : String → FetchOutcome
  jitter : Nat → ℚ

/-- Model of `backoffMs`: `Math.round(200 * 2 ** attempt + Math.random() * 80)`
with the random draw made explicit. -/
def backoffMs (jitter : Nat → ℚ) (attempt : Nat) : ℤ :=
  round ((200 : ℚ) * 2 ^ attempt + jitter attempt * 80)

/-- Observable outcome of `requestWithRetries`: the returned or thrown
value, the number of retry-loop fetches, the number of L402 replay fetches
with the authorization header used, and the backoff delays slept. -/
structure RunOutcome where
  result : Except RuntimeError HttpResp
  loopFetches : Nat
  replayFetches : Nat
  replayAuth : Option String
  delays : List ℤ

/-- The Mode A interception of a 402 response: parse the challenge, invoke
the handler, replay once with L402 credentials, and fall back to the
original 402 if auto-pay (or its replay) throws or no challenge parses. -/
def autoPayOutcome (env : HttpEnv) (resp : HttpResp) : RunOutcome :=
  match parseL402Challenge resp.headers resp.data with
  | some challenge =>
    match env.pay challenge with
    | some preimage =>
      match env.replay (buildL402Authorization challenge.macaroon preimage) with
      | .ok retryResponse =>
        { result := .ok retryResponse, loopFetches := 1, replayFetches := 1,
          replayAuth := some (buildL402Authorization challenge.macaroon preimage),
          delays := [] }
      | .exn _ =>
        { result := .ok resp, loopFetches := 1, replayFetches := 1,
          replayAuth := some (buildL402Authorization challenge.macaroon preimage),
          delays := [] }
    | none =>
      { result := .ok resp, loopFetches := 1, replayFetches := 0,
        replayAuth := none, delays := [] }
  | none =>
    { result := .ok resp, loopFetches := 1, replayFetches := 0,
      replayAuth := none, delays := [] }

/-- The retry loop of `requestWithRetries`, as a function of the remaining
attempt outcomes; `idx` is the current attempt index (for backoff and for
reading the environment).  The list passed at top level has length
`maxRetries + 1`, so an empty list corresponds to the loop falling through. -/
def runLoop (hasHandler : Bool) (env : HttpEnv) :
    List FetchOutcome → Nat → RunOutcome
  | [], _ =>
    { result := .error internalRetryError, loopFetches := 0, replayFetches := 0,
      replayAuth := none, delays := [] }
  | o :: rest, idx =>
    match o with
    | .exn isAbort =>
      if rest.isEmpty then
        { result := .error (networkErrorOf isAbort), loopFetches := 1,
          replayFetches := 0, replayAuth := none, delays := [] }
      else
        let r := runLoop hasHandler env rest (idx + 1)
        { r with loopFetches := r.loopFetches + 1,
                 delays := backoffMs env.jitter idx :: r.delays }
    | .ok resp =>
      if resp.status = 402 ∧ hasHandler = true then
        autoPayOutcome env resp
      else if isRetryableStatus resp.status = true ∧ rest.isEmpty = false then
        let r := runLoop hasHandler env rest (idx + 1)
        { r with loopFetches := r.loopFetches + 1,
                 delays := backoffMs env.jitter idx :: r.delays }
      else
        { result := .ok resp, loopFetches := 1, replayFetches := 0,
          replayAuth := none, delays := [] }

/-- Model of `requestWithRetries`: `maxRetries + 1` total loop attempts. -/
def requestWithRetries (opts : HttpClientOptions) (env : HttpEnv) : RunOutcome :=
  runLoop opts.l402Handler env
    ((List.range (opts.maxRetries + 1)).map env.attempts) 0

structure L402AuthCredentials where
  macaroon : String
  preimage : String
deriving DecidableEq, Repr

/-- Per-request options of the client. -/
structure HttpRequestOptions where
  allowL402Quote : Bool := false
  l402Auth : Option L402AuthCredentials := none
deriving DecidableEq, Repr

/-- Truthiness of an optional JS string (empty string is falsy). -/
def isTruthyStr : Option String → Bool
  | none => false
  | some s => s ≠ ""

/-- Model of `resolveHeaders`: the fixed authorization precedence.  Returns
the header record or the locally raised `missing_bearer_token` error. -/
def resolveHeaders (opts : HttpClientOptions) (ro : HttpRequestOptions) :
    Except RuntimeError (List (String × String)) :=
  let headers : List (String × String) := [("accept", "*/*")]
  match ro.l402Auth with
  | some cred =>
    .ok (headers ++ [("authorization", buildL402Authorization cred.macaroon cred.preimage)])
  | none =>
    if isTruthyStr opts.bearerToken then
      .ok (headers ++ [("authorization", "Bearer " ++ (opts.bearerToken.getD ""))])
    else if opts.l402Handler then .ok headers
    else if ro.allowL402Quote then .ok headers
    else .error missingBearerTokenError

/-- Model of `postJson`: header resolution happens before any fetch, so a
header failure yields zero fetches of any kind. -/
def postJson (opts : HttpClientOptions) (env : HttpEnv) (ro : HttpRequestOptions) :
    RunOutcome :=
  match resolveHeaders opts ro with
  | .error e =>
    { result := .error e, loopFetches := 0, replayFetches := 0,
      replayAuth := none, delays := [] }
  | .ok _ => requestWithRetries opts env

/-! ## Tool registry reconciliation (src/tools/registry.ts) -/

/-- Mutable registry state: the last synced ToolState, the last catalog
state, and the names of the currently registered tool handles. -/
structure RegistryModel where
  toolState : Option ToolState
  catalogState : Option CatalogState
  registeredTools : List String
deriving DecidableEq, Repr

/-- Observable outcome of one `syncTools` call: the returned boolean, the
new registry state, the unregister/register operations performed (as tool
names, in order) and the number of list-changed notifications emitted. -/
structure SyncResult where
  changed : Bool
  state : RegistryModel
  unregistered : List String
  registered : List String
  notifications : Nat
deriving DecidableEq, Repr

/-- Model of `AlbomToolRegistry.syncTools`.  The catalog provider is
abstracted: `catalogState` is the state it resolves to for this call
(`forceRefresh` only influences which state that is). -/
def syncTools (config : AlbomConfig) (st : RegistryModel) (catalogState : CatalogState)
    (forceRefresh emitNotification connected : Bool) : SyncResult :=
  let _ := forceRefresh
  let st1 := { st with catalogState := some catalogState }
  let nextToolState := buildToolState catalogState config
  let changed :=
    match st.toolState with
    | none => true
    | some ts => decide (ts.signature ≠ nextToolState.signature)
  if changed = false then
    { changed := false, state := st1, unregistered := [], registered := [],
      notifications := 0 }
  else
    let names := nextToolState.tools.map (fun t => t.name)
    let hadPrevious := st.toolState.isSome
    { changed := true,
      state := { st1 with toolState := some nextToolState, registeredTools := names },
      unregistered := st.registeredTools,
      registered := names,
      notifications := if emitNotification && hadPrevious && connected then 1 else 0 }

/-- Model of `AlbomToolRegistry.initialize`: a forced sync with
notifications disabled. -/
def registryInit (config : AlbomConfig) (st : RegistryModel)
    (catalogState : CatalogState) (connected : Bool) : SyncResult :=
  syncTools config st catalogState true false connected

/-! ## Claim C10: Jaccard on empty model sets -/

/-- C10: `modelSetJaccard` applied to two empty model-name lists returns 1,
so two endpoints that both declare no models are duplicate candidates
whenever they share method, content type and family. -/
theorem claim_C10_empty_jaccard :
    modelSetJaccard [] [] = 1 ∧
    ∀ a b : EndpointDescriptor, a.models = [] → b.models = [] →
      a.method = b.method → a.contentType = b.contentType → a.family = b.family →
      isDuplicateCandidate a b = true := by
  refine ⟨by decide, ?_⟩
  intro a b ha hb hm hc hf
  simp [isDuplicateCandidate, ha, hb, hm, hc, hf, modelSetJaccard, jsSetList]
  norm_num

def c10EndpointA : EndpointDescriptor :=
  { apiKey := "openai", apiName := "OpenAI", path := "/v1/custom/a", method := "POST",
    priceType := .flat, description := "a", contentType := .json, models := [],
    fileField := none, family := "custom" }

def c10EndpointB : EndpointDescriptor :=
  { apiKey := "openai", apiName := "OpenAI", path := "/v1/custom/b", method := "POST",
    priceType := .flat, description := "b", contentType := .json, models := [],
    fileField := none, family := "custom" }

/-- Witness for C10 at two concrete model-free POST endpoints. -/
theorem claim_C10_empty_jaccard_witness :
    isDuplicateCandidate c10EndpointA c10EndpointB = true :=
  claim_C10_empty_jaccard.2 c10EndpointA c10EndpointB rfl rfl rfl rfl rfl

/-! ## Claim C5: error-code mapping -/

/-- Status-based error-code table exactly as the claim states it. -/
def specStatusErrorCode (status : Nat) : String :=
  if status = 401 then "invalid_token"
  else if status = 402 then "payment_required"
  else if status = 404 then "endpoint_not_found"
  else if status = 413 then "request_too_large"
  else if status = 429 then "rate_limited"
  else if status ≥ 500 then "upstream_unavailable"
  else "upstream_error"

/-- Upstream-declared error code of a structured body: the nested
`error.code`, else the top-level `code`, else the `status` string. -/
def upstreamDeclaredCode (fields : List (String × JValue)) : Option String :=
  (((match jget fields "error" with
     | some v => asRecordFields v
     | none => none).bind (fun ef => asString (jget ef "code"))).orElse
    (fun _ => asString (jget fields "code"))).orElse
    (fun _ => asString (jget fields "status"))

/-- C5 counterexample: a 404 whose body is a structured (but code-free) JSON
object is mapped to `upstream_error`, not to `endpoint_not_found` as the
claim requires for status 404. -/
theorem claim_C5_counterexample :
    mapErrorCode 404 (JValue.obj []) = "upstream_error" ∧
    (buildErrorResult "/v1/responses" 404 (JValue.obj []) none).error.code ≠
      "endpoint_not_found" := by
  constructor
  · rfl
  · intro h
    simp [buildErrorResult, mapErrorCode, jget, asString, asRecordFields] at h

/-- C5 (amended): the status table applies exactly when the body is not a
structured object; for structured bodies the 402 body-status special cases
fire first, then the upstream-declared code wins, and the status-based
fallback is `invalid_token` for 401 and `upstream_error` otherwise. -/
theorem claim_C5_amended_mapping :
    (∀ status : Nat, ∀ data : JValue, asRecordFields data = none →
      mapErrorCode status data = specStatusErrorCode status) ∧
    (∀ fields, asString (jget fields "status") = some "payment_required" →
      mapErrorCode 402 (JValue.obj fields) = "payment_required") ∧
    (∀ fields, asString (jget fields "status") = some "insufficient_balance" →
      mapErrorCode 402 (JValue.obj fields) = "insufficient_balance") ∧
    (∀ status : Nat, ∀ fields,
      (status = 402 → asString (jget fields "status") ≠ some "payment_required" ∧
        asString (jget fields "status") ≠ some "insufficient_balance") →
      mapErrorCode status (JValue.obj fields) =
        (upstreamDeclaredCode fields).getD
          (if status = 401 then "invalid_token" else "upstream_error")) := by
  refine ⟨?_, ?_, ?_, ?_⟩
  · intro status data h
    simp [mapErrorCode, h, specStatusErrorCode]
  · intro fields h
    simp [mapErrorCode, asRecordFields, h]
  · intro fields h
    have hne : asString (jget fields "status") ≠ some "payment_required" := by
      rw [h]; intro hcon; simp at hcon
    simp [mapErrorCode, asRecordFields, h, hne]
  · intro status fields hspecial
    by_cases h1 : status = 402 ∧ asString (jget fields "status") = some "payment_required"
    · exact absurd h1.2 ((hspecial h1.1).1)
    · by_cases h2 : status = 402 ∧ asString (jget fields "status") = some "insufficient_balance"
      · exact absurd h2.2 ((hspecial h2.1).2)
      · simp only [mapErrorCode, asRecordFields, upstreamDeclaredCode, if_neg h1, if_neg h2]

/-- Witness for C5 (amended): a plain-text 404 body maps through the status
table, and a structured 402 body carrying `insufficient_balance` maps to
that code. -/
theorem claim_C5_amended_mapping_witness :
    mapErrorCode 404 (JValue.str "not found") = "endpoint_not_found" ∧
    mapErrorCode 402 (JValue.obj [("status", JValue.str "insufficient_balance")]) =
      "insufficient_balance" := by
  constructor
  · exact (claim_C5_amended_mapping.1 404 (JValue.str "not found") rfl).trans (by decide)
  · exact claim_C5_amended_mapping.2.2.1 [("status", JValue.str "insufficient_balance")] rfl

/-! ## Claim C6: token cache capacity and TTL -/

theorem length_mapSet_le (l : List (String × L402CacheEntry)) (k : String)
    (v : L402CacheEntry) : (mapSet l k v).length ≤ l.length + 1 := by
  induction l with
  | nil => simp [mapSet]
  | cons hd tl ih =>
    obtain ⟨k', v'⟩ := hd
    by_cases h : k' = k
    · simp [mapSet, h]
    · simp only [mapSet, if_neg h, List.length_cons]
      omega

theorem length_purgeExpired_le (l : List (String × L402CacheEntry)) (now : Nat) :
    (purgeExpired l now).length ≤ l.length :=
  List.length_filter_le _ l

theorem purgeExpired_of_fresh (l : List (String × L402CacheEntry)) (now : Nat)
    (h : ∀ kv ∈ l, ¬ now > kv.2.expiresAt) : purgeExpired l now = l := by
  unfold purgeExpired
  apply List.filter_eq_self.mpr
  intro kv hkv
  simpa using h kv hkv

theorem evictOldest_cons (k : String) (v : L402CacheEntry)
    (rest : List (String × L402CacheEntry)) :
    evictOldest ((k, v) :: rest) = rest := by
  simp [evictOldest, mapDelete]

theorem length_evictOldest (l : List (String × L402CacheEntry)) (h : l ≠ []) :
    (evictOldest l).length = l.length - 1 := by
  match l with
  | [] => exact absurd rfl h
  | (k, v) :: rest => simp [evictOldest_cons]

/-- C6 counterexample: the constructor accepts `maxEntries = 0`, and a single
`set` on such a cache leaves 1 entry, exceeding `maxEntries` — the oldest-key
eviction is a no-op on an empty map, so the bound fails for capacity 0. -/
theorem claim_C6_counterexample :
    ((cacheSet { entries := [], maxEntries := 0, defaultTtlMs := 300000 }
        { macaroon := "mac_1", invoice := "lnbc_1", paymentHash := "ph_1", amountSats := 10 }
        none 0).entries.length = 1) ∧
    ¬ ((cacheSet { entries := [], maxEntries := 0, defaultTtlMs := 300000 }
        { macaroon := "mac_1", invoice := "lnbc_1", paymentHash := "ph_1", amountSats := 10 }
        none 0).entries.length ≤
        (L402TokenCache.maxEntries { entries := [], maxEntries := 0, defaultTtlMs := 300000 })) := by
  constructor
  · rfl
  · decide

/-- C6 (amended): for every cache with `maxEntries ≥ 1`, `set` preserves the
capacity bound; `set` on a full cache with no expired entries evicts exactly
the oldest entry by insertion order before inserting; and `get` deletes and
hides an entry whose TTL has elapsed (`now` strictly past `expiresAt`). -/
theorem claim_C6_amended_cache :
    (∀ (c : L402TokenCache) (ch : L402Challenge) (ttl : Option Nat) (now : Nat),
      1 ≤ c.maxEntries → c.entries.length ≤ c.maxEntries →
      (cacheSet c ch ttl now).entries.length ≤ c.maxEntries) ∧
    (∀ (c : L402TokenCache) (ch : L402Challenge) (ttl : Option Nat) (now : Nat),
      1 ≤ c.maxEntries → c.entries.length = c.maxEntries →
      (∀ kv ∈ c.entries, ¬ now > kv.2.expiresAt) →
      (cacheSet c ch ttl now).entries =
        mapSet c.entries.tail ch.paymentHash
          { macaroon := ch.macaroon, invoice := ch.invoice,
            paymentHash := ch.paymentHash, amountSats := ch.amountSats,
            expiresAt := now + ttl.getD c.defaultTtlMs }) ∧
    (∀ (c : L402TokenCache) (k : String) (now : Nat) (kv : String × L402CacheEntry),
      c.entries.find? (fun e => e.1 = k) = some kv → now > kv.2.expiresAt →
      (cacheGet c k now).1 = none ∧
      (cacheGet c k now).2.entries = mapDelete c.entries k) := by
  refine ⟨?_, ?_, ?_⟩
  · intro c ch ttl now hmax hsize
    unfold cacheSet
    by_cases hfull : c.entries.length ≥ c.maxEntries
    · have hEq : c.entries.length = c.maxEntries := le_antisymm hsize hfull
      simp only [if_pos hfull]
      by_cases hfull2 : (purgeExpired c.entries now).length ≥ c.maxEntries
      · have hplen := length_purgeExpired_le c.entries now
        have hpe : purgeExpired c.entries now ≠ [] := by
          apply List.length_pos.mp
          omega
        simp only [if_pos hfull2]
        have hev := length_evictOldest (purgeExpired c.entries now) hpe
        have := length_mapSet_le (evictOldest (purgeExpired c.entries now))
          ch.paymentHash
          { macaroon := ch.macaroon, invoice := ch.invoice,
            paymentHash := ch.paymentHash, amountSats := ch.amountSats,
            expiresAt := now + ttl.getD c.defaultTtlMs }
        omega
      · simp only [if_neg hfull2]
        have := length_mapSet_le (purgeExpired c.entries now) ch.paymentHash
          { macaroon := ch.macaroon, invoice := ch.invoice,
            paymentHash := ch.paymentHash, amountSats := ch.amountSats,
            expiresAt := now + ttl.getD c.defaultTtlMs }
        omega
    · simp only [if_neg hfull]
      have := length_mapSet_le c.entries ch.paymentHash
        { macaroon := ch.macaroon, invoice := ch.invoice,
          paymentHash := ch.paymentHash, amountSats := ch.amountSats,
          expiresAt := now + ttl.getD c.defaultTtlMs }
      omega
  · intro c ch ttl now hmax hfullEq hfresh
    have hfull : c.entries.length ≥ c.maxEntries := le_of_eq hfullEq.symm
    have htail : evictOldest c.entries = c.entries.tail := by
      cases c.entries with
      | nil => rfl
      | cons hd rest =>
        obtain ⟨k0, v0⟩ := hd
        simp [evictOldest_cons]
    simp only [cacheSet, purgeExpired_of_fresh c.entries now hfresh, if_pos hfull, htail]
  · intro c k now kv hfind hexp
    have hget : cacheGet.recordGetEntry c.entries k = some kv.2 := by
      unfold cacheGet.recordGetEntry
      rw [hfind]
      rfl
    constructor
    · unfold cacheGet
      rw [hget]
      simp [hexp]
    · unfold cacheGet
      rw [hget]
      simp [hexp]

/-- Witness for C6 (amended) on a concrete full two-entry cache: inserting a
third key evicts exactly the first inserted key, and a stale entry is hidden
and deleted by `get`. -/
theorem claim_C6_amended_cache_witness :
    (cacheSet
        { entries :=
            [("ph_0", { macaroon := "mac_0", invoice := "lnbc_0", paymentHash := "ph_0",
                        amountSats := 1, expiresAt := 500 }),
             ("ph_1", { macaroon := "mac_1", invoice := "lnbc_1", paymentHash := "ph_1",
                        amountSats := 2, expiresAt := 600 })],
          maxEntries := 2, defaultTtlMs := 1000 }
        { macaroon := "mac_2", invoice := "lnbc_2", paymentHash := "ph_2", amountSats := 3 }
        none 100).entries =
      [("ph_1", { macaroon := "mac_1", invoice := "lnbc_1", paymentHash := "ph_1",
                  amountSats := 2, expiresAt := 600 }),
       ("ph_2", { macaroon := "mac_2", invoice := "lnbc_2", paymentHash := "ph_2",
                  amountSats := 3, expiresAt := 1100 })] ∧
    (cacheGet
        { entries :=
            [("ph_9", { macaroon := "mac_9", invoice := "lnbc_9", paymentHash := "ph_9",
                        amountSats := 5, expiresAt := 50 })],
          maxEntries := 5, defaultTtlMs := 1000 } "ph_9" 100).1 = none := by
  constructor
  · rw [claim_C6_amended_cache.2.1
      { entries :=
          [("ph_0", { macaroon := "mac_0", invoice := "lnbc_0", paymentHash := "ph_0",
                      amountSats := 1, expiresAt := 500 }),
           ("ph_1", { macaroon := "mac_1", invoice := "lnbc_1", paymentHash := "ph_1",
                      amountSats := 2, expiresAt := 600 })],
        maxEntries := 2, defaultTtlMs := 1000 }
      { macaroon := "mac_2", invoice := "lnbc_2", paymentHash := "ph_2", amountSats := 3 }
      none 100 (by decide) (by decide) (by decide)]
    decide
  · exact (claim_C6_amended_cache.2.2
      { entries :=
          [("ph_9", { macaroon := "mac_9", invoice := "lnbc_9", paymentHash := "ph_9",
                      amountSats := 5, expiresAt := 50 })],
        maxEntries := 5, defaultTtlMs := 1000 } "ph_9" 100
      ("ph_9", { macaroon := "mac_9", invoice := "lnbc_9", paymentHash := "ph_9",
                 amountSats := 5, expiresAt := 50 })
      (by decide) (by decide)).1

/-! ## Claim C4: registry reconciliation -/

/-- C4: `syncTools` returns false and performs no unregister or register
operation when the recomputed signature matches the previous one; on a
signature change it unregisters all previously registered tools, registers
the new list, stores the new ToolState, returns true, and emits exactly one
notification iff `emitNotification` is set, a previous ToolState existed and
the connection is live; the first `initialize` never notifies. -/
theorem claim_C4_syncTools_reconciliation (config : AlbomConfig) (st : RegistryModel)
    (catalog : CatalogState) (force emit conn : Bool) :
    (∀ ts, st.toolState = some ts →
      ts.signature = (buildToolState catalog config).signature →
      (syncTools config st catalog force emit conn).changed = false ∧
      (syncTools config st catalog force emit conn).unregistered = [] ∧
      (syncTools config st catalog force emit conn).registered = [] ∧
      (syncTools config st catalog force emit conn).notifications = 0 ∧
      (syncTools config st catalog force emit conn).state.toolState = st.toolState ∧
      (syncTools config st catalog force emit conn).state.registeredTools =
        st.registeredTools) ∧
    ((∀ ts, st.toolState = some ts →
        ts.signature ≠ (buildToolState catalog config).signature) →
      (syncTools config st catalog force emit conn).changed = true ∧
      (syncTools config st catalog force emit conn).unregistered = st.registeredTools ∧
      (syncTools config st catalog force emit conn).registered =
        (buildToolState catalog config).tools.map (fun t => t.name) ∧
      (syncTools config st catalog force emit conn).state.toolState =
        some (buildToolState catalog config) ∧
      (syncTools config st catalog force emit conn).state.registeredTools =
        (buildToolState catalog config).tools.map (fun t => t.name) ∧
      (syncTools config st catalog force emit conn).notifications =
        (if emit && st.toolState.isSome && conn then 1 else 0)) ∧
    (registryInit config st catalog conn).notifications = 0 ∧
    (st.toolState = none →
      (syncTools config st catalog force emit conn).notifications = 0) := by
  refine ⟨?_, ?_, ?_, ?_⟩
  · intro ts hts hsig
    simp [syncTools, hts, hsig]
  · intro hdiff
    cases hst : st.toolState with
    | none => simp [syncTools, hst]
    | some ts =>
      have hne := hdiff ts hst
      simp [syncTools, hst, hne]
  · unfold registryInit syncTools
    cases hst : st.toolState with
    | none => simp
    | some ts =>
      by_cases hsig : ts.signature = (buildToolState catalog config).signature
      · simp [hsig]
      · simp [hsig]
  · intro hnone
    simp [syncTools, hnone]

def c4Catalog : CatalogState := { endpoints := [] }

def c4Config : AlbomConfig :=
  { toolProfile := .compact, includeModeration := false, includeEmbeddings := false,
    includeVideo := false, allowRawTool := false }

/-- Witness for C4 at a concrete empty catalog: a first sync from the
uninitialized state changes, registers the catalog tool and never notifies;
a second sync with the stored state is a no-op. -/
theorem claim_C4_syncTools_reconciliation_witness :
    ((syncTools c4Config
        { toolState := none, catalogState := none, registeredTools := [] }
        c4Catalog false true true).changed = true ∧
     (syncTools c4Config
        { toolState := none, catalogState := none, registeredTools := [] }
        c4Catalog false true true).registered = ["albom_catalog_get"] ∧
     (syncTools c4Config
        { toolState := none, catalogState := none, registeredTools := [] }
        c4Catalog false true true).notifications = 0) ∧
    (syncTools c4Config
        { toolState := some (buildToolState c4Catalog c4Config),
          catalogState := some c4Catalog,
          registeredTools := ["albom_catalog_get"] }
        c4Catalog false true true).changed = false := by
  constructor
  · have h := (claim_C4_syncTools_reconciliation c4Config
      { toolState := none, catalogState := none, registeredTools := [] }
      c4Catalog false true true).2.1 (by intro ts hts; cases hts)
    refine ⟨h.1, ?_, ?_⟩
    · rw [h.2.2.1]; decide
    · rw [h.2.2.2.2.2]; decide
  · exact ((claim_C4_syncTools_reconciliation c4Config
      { toolState := some (buildToolState c4Catalog c4Config),
        catalogState := some c4Catalog,
        registeredTools := ["albom_catalog_get"] }
      c4Catalog false true true).1 (buildToolState c4Catalog c4Config) rfl rfl).1

/-! ## Claim C8: compact-profile canonicalization -/

theorem optSegment_filter_of_ne (p : PlannedTool → Bool) (o : Option EndpointDescriptor)
    (mk : EndpointDescriptor → PlannedTool) (h : ∀ e, p (mk e) = false) :
    (optSegment o mk).filter p = [] := by
  cases o with
  | none => rfl
  | some e => simp [optSegment, h]

theorem condSegment_filter_of_ne (p : PlannedTool → Bool) (b : Bool)
    (l : List PlannedTool) (h : l.filter p = []) :
    (if b = true then l else []).filter p = [] := by
  cases b <;> simp [h]

theorem chooseCompactTextEndpoint_responses (catalog : CatalogState)
    (er : EndpointDescriptor)
    (hre : endpointByPath catalog "/v1/responses" = some er) :
    chooseCompactTextEndpoint catalog = some er := by
  unfold chooseCompactTextEndpoint
  rw [hre]
  cases endpointByPath catalog "/v1/chat/completions" with
  | none => rfl
  | some chat => by_cases h : isDuplicateCandidate chat er = true <;> simp [h]

theorem endpointByPath_path (catalog : CatalogState) (path : String)
    (e : EndpointDescriptor) (h : endpointByPath catalog path = some e) :
    e.path = path ∧ e.method = "POST" := by
  have hp := List.find?_some h
  simp only [Bool.and_eq_true, beq_iff_eq] at hp
  exact hp

/-- The compact tool list filtered by a kind matched only by the text tool
collapses to exactly the canonical text tool. -/
theorem makeCompactTools_filter_text (catalog : CatalogState) (config : AlbomConfig)
    (er : EndpointDescriptor)
    (hc : chooseCompactTextEndpoint catalog = some er) :
    (makeCompactTools catalog config).filter (fun t => t.kind == ToolKind.textGenerate) =
      [compactTextTool er] := by
  unfold makeCompactTools
  rw [hc]
  simp only [List.filter_append]
  rw [optSegment_filter_of_ne _ (endpointByPath catalog "/v1/images/generations") _
       (fun e => rfl),
      optSegment_filter_of_ne _ (endpointByPath catalog "/v1/images/edits") _
       (fun e => rfl),
      optSegment_filter_of_ne _ (endpointByPath catalog "/v1/audio/transcriptions") _
       (fun e => rfl),
      optSegment_filter_of_ne _ (endpointByPath catalog "/v1/audio/speech") _
       (fun e => rfl),
      condSegment_filter_of_ne _ config.includeVideo _
       (optSegment_filter_of_ne _ (endpointByPath catalog "/v1/video/generations") _
         (fun e => rfl)),
      condSegment_filter_of_ne _ config.includeModeration _
       (optSegment_filter_of_ne _ (endpointByPath catalog "/v1/moderations") _
         (fun e => rfl)),
      condSegment_filter_of_ne _ config.includeEmbeddings _
       (optSegment_filter_of_ne _ (endpointByPath catalog "/v1/embeddings") _
         (fun e => rfl)),
      condSegment_filter_of_ne (fun t => t.kind == ToolKind.textGenerate)
       config.allowRawTool [rawCallTool] (by simp [rawCallTool])]
  simp [optSegment, catalogGetTool, compactTextTool]

theorem makeCompactTools_filter_imageGenerate (catalog : CatalogState)
    (config : AlbomConfig) (eg : EndpointDescriptor)
    (hg : endpointByPath catalog "/v1/images/generations" = some eg) :
    (makeCompactTools catalog config).filter (fun t => t.kind == ToolKind.imageGenerate) =
      [compactImageGenerateTool eg] := by
  unfold makeCompactTools
  rw [hg]
  simp only [List.filter_append]
  rw [optSegment_filter_of_ne _ (chooseCompactTextEndpoint catalog) _
       (fun e => rfl),
      optSegment_filter_of_ne _ (endpointByPath catalog "/v1/images/edits") _
       (fun e => rfl),
      optSegment_filter_of_ne _ (endpointByPath catalog "/v1/audio/transcriptions") _
       (fun e => rfl),
      optSegment_filter_of_ne _ (endpointByPath catalog "/v1/audio/speech") _
       (fun e => rfl),
      condSegment_filter_of_ne _ config.includeVideo _
       (optSegment_filter_of_ne _ (endpointByPath catalog "/v1/video/generations") _
         (fun e => rfl)),
      condSegment_filter_of_ne _ config.includeModeration _
       (optSegment_filter_of_ne _ (endpointByPath catalog "/v1/moderations") _
         (fun e => rfl)),
      condSegment_filter_of_ne _ config.includeEmbeddings _
       (optSegment_filter_of_ne _ (endpointByPath catalog "/v1/embeddings") _
         (fun e => rfl)),
      condSegment_filter_of_ne (fun t => t.kind == ToolKind.imageGenerate)
       config.allowRawTool [rawCallTool] (by simp [rawCallTool])]
  simp [optSegment, catalogGetTool, compactImageGenerateTool]

theorem makeCompactTools_filter_imageEdit (catalog : CatalogState)
    (config : AlbomConfig) (ee : EndpointDescriptor)
    (he : endpointByPath catalog "/v1/images/edits" = some ee) :
    (makeCompactTools catalog config).filter (fun t => t.kind == ToolKind.imageEdit) =
      [compactImageEditTool ee] := by
  unfold makeCompactTools
  rw [he]
  simp only [List.filter_append]
  rw [optSegment_filter_of_ne _ (chooseCompactTextEndpoint catalog) _
       (fun e => rfl),
      optSegment_filter_of_ne _ (endpointByPath catalog "/v1/images/generations") _
       (fun e => rfl),
      optSegment_filter_of_ne _ (endpointByPath catalog "/v1/audio/transcriptions") _
       (fun e => rfl),
      optSegment_filter_of_ne _ (endpointByPath catalog "/v1/audio/speech") _
       (fun e => rfl),
      condSegment_filter_of_ne _ config.includeVideo _
       (optSegment_filter_of_ne _ (endpointByPath catalog "/v1/video/generations") _
         (fun e => rfl)),
      condSegment_filter_of_ne _ config.includeModeration _
       (optSegment_filter_of_ne _ (endpointByPath catalog "/v1/moderations") _
         (fun e => rfl)),
      condSegment_filter_of_ne _ config.includeEmbeddings _
       (optSegment_filter_of_ne _ (endpointByPath catalog "/v1/embeddings") _
         (fun e => rfl)),
      condSegment_filter_of_ne (fun t => t.kind == ToolKind.imageEdit)
       config.allowRawTool [rawCallTool] (by simp [rawCallTool])]
  simp [optSegment, catalogGetTool, compactImageEditTool]

/-- C8: with both text endpoints present and identical model sets, the
compact profile yields exactly one text-generation tool, routed to
`/v1/responses`; image-generate and image-edit always remain two distinct
tools routed to their own endpoints, independent of model overlap. -/
theorem claim_C8_compact_text_canonical (catalog : CatalogState) (config : AlbomConfig)
    (er ec : EndpointDescriptor)
    (hprof : config.toolProfile = .compact)
    (hre : endpointByPath catalog "/v1/responses" = some er)
    (_hch : endpointByPath catalog "/v1/chat/completions" = some ec)
    (_hmodels : er.models = ec.models) :
    (((buildToolState catalog config).tools.filter
        (fun t => t.kind == ToolKind.textGenerate)).length = 1 ∧
     (∀ t ∈ (buildToolState catalog config).tools, t.kind = .textGenerate →
        t.endpointPath = some "/v1/responses")) ∧
    (∀ eg ee : EndpointDescriptor,
      endpointByPath catalog "/v1/images/generations" = some eg →
      endpointByPath catalog "/v1/images/edits" = some ee →
      ((buildToolState catalog config).tools.filter
          (fun t => t.kind == ToolKind.imageGenerate)).length = 1 ∧
      ((buildToolState catalog config).tools.filter
          (fun t => t.kind == ToolKind.imageEdit)).length = 1 ∧
      (∀ t ∈ (buildToolState catalog config).tools, t.kind = .imageGenerate →
        t.endpointPath = some "/v1/images/generations") ∧
      (∀ t ∈ (buildToolState catalog config).tools, t.kind = .imageEdit →
        t.endpointPath = some "/v1/images/edits")) := by
  have htools : (buildToolState catalog config).tools = makeCompactTools catalog config := by
    simp [buildToolState, hprof]
  have hchoose := chooseCompactTextEndpoint_responses catalog er hre
  have hpath := (endpointByPath_path catalog "/v1/responses" er hre).1
  have htext := makeCompactTools_filter_text catalog config er hchoose
  constructor
  · constructor
    · rw [htools, htext]
      rfl
    · intro t ht hkind
      have hmem : t ∈ (makeCompactTools catalog config).filter
          (fun t => t.kind == ToolKind.textGenerate) := by
        rw [List.mem_filter]
        refine ⟨by rwa [← htools], ?_⟩
        simp [hkind]
      rw [htext] at hmem
      simp only [List.mem_singleton] at hmem
      rw [hmem]
      simp [compactTextTool, hpath]
  · intro eg ee hg he
    have hgen := makeCompactTools_filter_imageGenerate catalog config eg hg
    have hedit := makeCompactTools_filter_imageEdit catalog config ee he
    have hgendpath := (endpointByPath_path catalog "/v1/images/generations" eg hg).1
    have heditpath := (endpointByPath_path catalog "/v1/images/edits" ee he).1
    refine ⟨by rw [htools, hgen]; rfl, by rw [htools, hedit]; rfl, ?_, ?_⟩
    · intro t ht hkind
      have hmem : t ∈ (makeCompactTools catalog config).filter
          (fun t => t.kind == ToolKind.imageGenerate) := by
        rw [List.mem_filter]
        refine ⟨by rwa [← htools], ?_⟩
        simp [hkind]
      rw [hgen] at hmem
      simp only [List.mem_singleton] at hmem
      rw [hmem]
      simp [compactImageGenerateTool, hgendpath]
    · intro t ht hkind
      have hmem : t ∈ (makeCompactTools catalog config).filter
          (fun t => t.kind == ToolKind.imageEdit) := by
        rw [List.mem_filter]
        refine ⟨by rwa [← htools], ?_⟩
        simp [hkind]
      rw [hedit] at hmem
      simp only [List.mem_singleton] at hmem
      rw [hmem]
      simp [compactImageEditTool, heditpath]

def c8Responses : EndpointDescriptor :=
  { apiKey := "openai", apiName := "OpenAI", path := "/v1/responses", method := "POST",
    priceType := .perModel, description := "Responses", contentType := .json,
    models := ["gpt-4.1-mini", "gpt-4o-mini"], fileField := none,
    family := "text-generation" }

def c8Chat : EndpointDescriptor :=
  { apiKey := "openai", apiName := "OpenAI", path := "/v1/chat/completions", method := "POST",
    priceType := .perModel, description := "Chat completions", contentType := .json,
    models := ["gpt-4.1-mini", "gpt-4o-mini"], fileField := none,
    family := "text-generation" }

def c8ImageGen : EndpointDescriptor :=
  { apiKey := "openai", apiName := "OpenAI", path := "/v1/images/generations",
    method := "POST", priceType := .perModel, description := "Image generations",
    contentType := .json, models := ["dall-e-3", "gpt-image-1"], fileField := none,
    family := "image" }

def c8ImageEdit : EndpointDescriptor :=
  { apiKey := "openai", apiName := "OpenAI", path := "/v1/images/edits",
    method := "POST", priceType := .perModel, description := "Image edits",
    contentType := .multipart, models := ["gpt-image-1"], fileField := some "image",
    family := "image" }

def c8Catalog : CatalogState :=
  { endpoints := [c8Chat, c8Responses, c8ImageGen, c8ImageEdit] }

def c8Config : AlbomConfig :=
  { toolProfile := .compact, includeModeration := true, includeEmbeddings := true,
    includeVideo := true, allowRawTool := false }

/-- Witness for C8 at a concrete catalog holding both text endpoints with
identical model sets plus both image endpoints. -/
theorem claim_C8_compact_text_canonical_witness :
    ((buildToolState c8Catalog c8Config).tools.filter
        (fun t => t.kind == ToolKind.textGenerate)).length = 1 ∧
    ((buildToolState c8Catalog c8Config).tools.filter
        (fun t => t.kind == ToolKind.imageGenerate)).length = 1 ∧
    ((buildToolState c8Catalog c8Config).tools.filter
        (fun t => t.kind == ToolKind.imageEdit)).length = 1 := by
  have h := claim_C8_compact_text_canonical c8Catalog c8Config c8Responses c8Chat
    rfl (by decide) (by decide) rfl
  have himg := h.2 c8ImageGen c8ImageEdit (by decide) (by decide)
  exact ⟨h.1.1, himg.1, himg.2.1⟩

/-! ## Claim C9: tool-name constraints -/

theorem allowed_underscore : isAllowedChar '_' = true := by decide

theorem all_allowed_replaceBadRuns (cs : List Char) :
    ∀ b, (replaceBadRuns b cs).all isAllowedChar = true := by
  induction cs with
  | nil => intro b; rfl
  | cons c rest ih =>
    intro b
    by_cases h : isAllowedChar c = true
    · simp [replaceBadRuns, h, ih]
    · cases b
      · simp [replaceBadRuns, h, ih, allowed_underscore]
      · simp [replaceBadRuns, h, ih, allowed_underscore]

theorem head?_dropWhile_not (p : Char → Bool) (l : List Char) :
    ∀ a, (l.dropWhile p).head? = some a → p a = false := by
  induction l with
  | nil => intro a h; simp [List.dropWhile] at h
  | cons c rest ih =>
    intro a h
    by_cases hc : p c = true
    · rw [List.dropWhile_cons, if_pos hc] at h
      exact ih a h
    · rw [List.dropWhile_cons, if_neg hc] at h
      simp only [List.head?_cons, Option.some.injEq] at h
      rw [← h]
      exact Bool.eq_false_iff.mpr hc

theorem all_stripEdgeUnderscores (cs : List Char) (h : cs.all isAllowedChar = true) :
    (stripEdgeUnderscores cs).all isAllowedChar = true := by
  rw [List.all_eq_true] at h ⊢
  intro x hx
  apply h
  unfold stripEdgeUnderscores at hx
  rw [List.mem_reverse] at hx
  have h1 := (List.dropWhile_suffix (l := (cs.dropWhile (fun c => c = '_')).reverse)
    (fun c => c = '_')).sublist.subset hx
  rw [List.mem_reverse] at h1
  exact (List.dropWhile_suffix (fun c => c = '_')).sublist.subset h1

theorem getLast?_stripEdgeUnderscores (cs : List Char) :
    ∀ a, (stripEdgeUnderscores cs).getLast? = some a → a ≠ '_' := by
  intro a ha
  unfold stripEdgeUnderscores at ha
  rw [List.getLast?_reverse] at ha
  have := head?_dropWhile_not _ _ a ha
  simpa using this

theorem head?_stripEdgeUnderscores (cs : List Char) :
    ∀ a, (stripEdgeUnderscores cs).head? = some a → a ≠ '_' := by
  intro a ha
  unfold stripEdgeUnderscores at ha
  rw [List.head?_reverse] at ha
  have hXne : (cs.dropWhile (fun c => c = '_')).reverse.dropWhile (fun c => c = '_') ≠ [] := by
    intro h0
    rw [h0] at ha
    simp at ha
  obtain ⟨t, ht⟩ :=
    List.dropWhile_suffix (l := (cs.dropWhile (fun c => c = '_')).reverse) (fun c => c = '_')
  have hlast : (cs.dropWhile (fun c => c = '_')).reverse.getLast? = some a := by
    rw [← ht, List.getLast?_append_of_ne_nil t hXne]
    exact ha
  rw [List.getLast?_reverse] at hlast
  have := head?_dropWhile_not _ cs a hlast
  simpa using this

theorem all_collapseUnderscoreRuns (cs : List Char) :
    ∀ b, cs.all isAllowedChar = true →
      (collapseUnderscoreRuns b cs).all isAllowedChar = true := by
  induction cs with
  | nil => intro b _; rfl
  | cons c rest ih =>
    intro b h
    rw [List.all_cons, Bool.and_eq_true] at h
    by_cases hc : c = '_'
    · cases b
      · simp [collapseUnderscoreRuns, hc, ih false h.2, ih true h.2, allowed_underscore]
      · simp [collapseUnderscoreRuns, hc, ih true h.2]
    · simp [collapseUnderscoreRuns, hc, ih false h.2, h.1]

theorem head?_collapse_true_ne (cs : List Char) :
    ∀ a, (collapseUnderscoreRuns true cs).head? = some a → a ≠ '_' := by
  induction cs with
  | nil => intro a h; simp [collapseUnderscoreRuns] at h
  | cons c rest ih =>
    intro a h
    by_cases hc : c = '_'
    · rw [show collapseUnderscoreRuns true (c :: rest) = collapseUnderscoreRuns true rest by
        simp [collapseUnderscoreRuns, hc]] at h
      exact ih a h
    · rw [show collapseUnderscoreRuns true (c :: rest) =
          c :: collapseUnderscoreRuns false rest by simp [collapseUnderscoreRuns, hc]] at h
      simp only [List.head?_cons, Option.some.injEq] at h
      rw [← h]
      exact hc

theorem chain'_collapseUnderscoreRuns (cs : List Char) :
    ∀ b, List.Chain' (fun a b => ¬(a = '_' ∧ b = '_')) (collapseUnderscoreRuns b cs) := by
  induction cs with
  | nil => intro b; simp [collapseUnderscoreRuns]
  | cons c rest ih =>
    intro b
    by_cases hc : c = '_'
    · cases b
      · rw [show collapseUnderscoreRuns false (c :: rest) =
            '_' :: collapseUnderscoreRuns true rest by simp [collapseUnderscoreRuns, hc]]
        rw [List.chain'_cons']
        refine ⟨?_, ih true⟩
        intro y hy
        have := head?_collapse_true_ne rest y hy
        intro hcon
        exact this hcon.2
      · rw [show collapseUnderscoreRuns true (c :: rest) = collapseUnderscoreRuns true rest by
          simp [collapseUnderscoreRuns, hc]]
        exact ih true
    · rw [show collapseUnderscoreRuns b (c :: rest) =
          c :: collapseUnderscoreRuns false rest by simp [collapseUnderscoreRuns, hc]]
      rw [List.chain'_cons']
      refine ⟨?_, ih false⟩
      intro y _
      intro hcon
      exact hc hcon.1

theorem collapse_ne_nil (cs : List Char) :
    cs ≠ [] → cs.getLast? ≠ some '_' → ∀ b, collapseUnderscoreRuns b cs ≠ [] := by
  induction cs with
  | nil => intro h; exact absurd rfl h
  | cons c rest ih =>
    intro _ hlast b
    by_cases hc : c = '_'
    · rcases rest with _ | ⟨r, rs⟩
      · rw [hc] at hlast
        simp at hlast
      · have hlast' : (r :: rs).getLast? ≠ some '_' := by
          rw [List.getLast?_cons_cons] at hlast
          exact hlast
        cases b
        · rw [show collapseUnderscoreRuns false (c :: r :: rs) =
              '_' :: collapseUnderscoreRuns true (r :: rs) by
                simp [collapseUnderscoreRuns, hc]]
          simp
        · rw [show collapseUnderscoreRuns true (c :: r :: rs) =
              collapseUnderscoreRuns true (r :: rs) by simp [collapseUnderscoreRuns, hc]]
          exact ih (by simp) hlast' true
    · rw [show collapseUnderscoreRuns b (c :: rest) =
          c :: collapseUnderscoreRuns false rest by simp [collapseUnderscoreRuns, hc]]
      simp

theorem getLast?_cons_of_ne_nil (c : Char) (l : List Char) (h : l ≠ []) :
    (c :: l).getLast? = l.getLast? := by
  cases l with
  | nil => exact absurd rfl h
  | cons x xs => rw [List.getLast?_cons_cons]

theorem getLast?_collapseUnderscoreRuns (cs : List Char) :
    cs.getLast? ≠ some '_' → ∀ b, (collapseUnderscoreRuns b cs).getLast? ≠ some '_' := by
  induction cs with
  | nil => intro _ b; simp [collapseUnderscoreRuns]
  | cons c rest ih =>
    intro hlast b
    rcases rest with _ | ⟨r, rs⟩
    · have hc : c ≠ '_' := by simpa using hlast
      rw [show collapseUnderscoreRuns b [c] = [c] by
        simp [collapseUnderscoreRuns, hc]]
      simpa using hc
    · have hlast' : (r :: rs).getLast? ≠ some '_' := by
        rw [List.getLast?_cons_cons] at hlast
        exact hlast
      have hne : (r :: rs) ≠ [] := by simp
      by_cases hc : c = '_'
      · cases b
        · rw [show collapseUnderscoreRuns false (c :: r :: rs) =
              '_' :: collapseUnderscoreRuns true (r :: rs) by
                simp [collapseUnderscoreRuns, hc]]
          rw [getLast?_cons_of_ne_nil _ _ (collapse_ne_nil (r :: rs) hne hlast' true)]
          exact ih hlast' true
        · rw [show collapseUnderscoreRuns true (c :: r :: rs) =
              collapseUnderscoreRuns true (r :: rs) by simp [collapseUnderscoreRuns, hc]]
          exact ih hlast' true
      · rw [show collapseUnderscoreRuns b (c :: r :: rs) =
            c :: collapseUnderscoreRuns false (r :: rs) by simp [collapseUnderscoreRuns, hc]]
        cases hcol : collapseUnderscoreRuns false (r :: rs) with
        | nil => simpa using hc
        | cons y ys =>
          rw [getLast?_cons_of_ne_nil _ _ (by simp)]
          rw [← hcol]
          exact ih hlast' false

theorem head?_collapse_of_head (cs : List Char) (hhead : cs.head? ≠ some '_') :
    (collapseUnderscoreRuns false cs).head? = cs.head? := by
  cases cs with
  | nil => rfl
  | cons c rest =>
    have hc : c ≠ '_' := by simpa using hhead
    rw [show collapseUnderscoreRuns false (c :: rest) =
        c :: collapseUnderscoreRuns false rest by simp [collapseUnderscoreRuns, hc]]
    simp

theorem noDoubleUnderscore_iff_chain' (l : List Char) :
    noDoubleUnderscore l = true ↔
      List.Chain' (fun a b => ¬(a = '_' ∧ b = '_')) l := by
  induction l with
  | nil => simp [noDoubleUnderscore]
  | cons a rest ih =>
    cases rest with
    | nil => simp [noDoubleUnderscore]
    | cons b tl =>
      by_cases hab : a = '_' ∧ b = '_'
      · simp [noDoubleUnderscore, hab, List.chain'_cons]
      · rw [show noDoubleUnderscore (a :: b :: tl) = noDoubleUnderscore (b :: tl) by
          simp [noDoubleUnderscore, hab]]
        rw [List.chain'_cons]
        rw [ih]
        simp [hab]

/-- Every output of `sanitizeToolName` satisfies the tool-name constraint. -/
theorem validToolName_sanitizeToolName (input : String) :
    ValidToolName (sanitizeToolName input) := by
  unfold sanitizeToolName ValidToolName
  have htl : ∀ l : List Char, (String.mk l).toList = l := fun l => rfl
  rw [htl]
  set s := stripEdgeUnderscores (replaceBadRuns false (jsToLower input).toList) with hs
  have hs_all : s.all isAllowedChar = true :=
    all_stripEdgeUnderscores _ (all_allowed_replaceBadRuns _ false)
  have hs_head := head?_stripEdgeUnderscores (replaceBadRuns false (jsToLower input).toList)
  have hs_last := getLast?_stripEdgeUnderscores (replaceBadRuns false (jsToLower input).toList)
  have hs_head' : s.head? ≠ some '_' := by
    intro hcon
    exact (hs_head '_' (hs ▸ hcon)) rfl
  have hs_last' : s.getLast? ≠ some '_' := by
    intro hcon
    exact (hs_last '_' (hs ▸ hcon)) rfl
  refine ⟨?_, ?_, ?_, ?_⟩
  · exact all_collapseUnderscoreRuns s false hs_all
  · rw [head?_collapse_of_head s hs_head']
    exact hs_head'
  · exact getLast?_collapseUnderscoreRuns s hs_last' false
  · exact (noDoubleUnderscore_iff_chain' _).mpr (chain'_collapseUnderscoreRuns s false)

theorem validToolName_fullToolName (a p : String) : ValidToolName (fullToolName a p) :=
  validToolName_sanitizeToolName _

/-- The fixed set of names the compact profile can emit, in emission order. -/
def compactFixedNames : List String :=
  ["albom_catalog_get", "albom_text_generate", "albom_image_generate", "albom_image_edit",
   "albom_audio_transcribe", "albom_audio_speech", "albom_video_generate",
   "albom_safety_moderate", "albom_embedding_create", "albom_raw_call"]

theorem map_name_singleton_sublist (t : PlannedTool) (n : String) (h : t.name = n) :
    List.Sublist ([t].map (fun t => t.name)) [n] := by
  rw [show [t].map (fun t => t.name) = [n] by simp [h]]

theorem map_name_optSegment_sublist (o : Option EndpointDescriptor)
    (mk : EndpointDescriptor → PlannedTool) (n : String) (h : ∀ e, (mk e).name = n) :
    List.Sublist ((optSegment o mk).map (fun t => t.name)) [n] := by
  cases o with
  | none => exact List.nil_sublist _
  | some e => exact map_name_singleton_sublist (mk e) n (h e)

theorem map_name_condSegment_sublist (b : Bool) (l : List PlannedTool) (n : String)
    (h : List.Sublist (l.map (fun t => t.name)) [n]) :
    List.Sublist ((if b = true then l else []).map (fun t => t.name)) [n] := by
  cases b
  · exact List.nil_sublist _
  · simpa using h

theorem compact_names_sublist (catalog : CatalogState) (config : AlbomConfig) :
    List.Sublist ((makeCompactTools catalog config).map (fun t => t.name))
      compactFixedNames := by
  unfold makeCompactTools
  simp only [List.map_append, List.append_assoc]
  show List.Sublist _ (["albom_catalog_get"] ++ (["albom_text_generate"] ++
    (["albom_image_generate"] ++ (["albom_image_edit"] ++ (["albom_audio_transcribe"] ++
    (["albom_audio_speech"] ++ (["albom_video_generate"] ++ (["albom_safety_moderate"] ++
    (["albom_embedding_create"] ++ ["albom_raw_call"])))))))))
  refine List.Sublist.append (map_name_singleton_sublist _ _ rfl) ?_
  refine List.Sublist.append (map_name_optSegment_sublist _ _ _ (fun e => rfl)) ?_
  refine List.Sublist.append (map_name_optSegment_sublist _ _ _ (fun e => rfl)) ?_
  refine List.Sublist.append (map_name_optSegment_sublist _ _ _ (fun e => rfl)) ?_
  refine List.Sublist.append (map_name_optSegment_sublist _ _ _ (fun e => rfl)) ?_
  refine List.Sublist.append (map_name_optSegment_sublist _ _ _ (fun e => rfl)) ?_
  refine List.Sublist.append (map_name_condSegment_sublist _ _ _
    (map_name_optSegment_sublist _ _ _ (fun e => rfl))) ?_
  refine List.Sublist.append (map_name_condSegment_sublist _ _ _
    (map_name_optSegment_sublist _ _ _ (fun e => rfl))) ?_
  refine List.Sublist.append (map_name_condSegment_sublist _ _ _
    (map_name_optSegment_sublist _ _ _ (fun e => rfl))) ?_
  exact map_name_condSegment_sublist _ _ _ (map_name_singleton_sublist _ _ rfl)

theorem compact_names_nodup (catalog : CatalogState) (config : AlbomConfig) :
    ((makeCompactTools catalog config).map (fun t => t.name)).Nodup :=
  List.Nodup.sublist (compact_names_sublist catalog config)
    (show compactFixedNames.Nodup by decide)

theorem fullToolsStep_preserves_valid (config : AlbomConfig)
    (acc : List PlannedTool × List String) (e : EndpointDescriptor)
    (h : ∀ t ∈ acc.1, ValidToolName t.name) :
    ∀ t ∈ (fullToolsStep config acc e).1, ValidToolName t.name := by
  intro t ht
  unfold fullToolsStep at ht
  split at ht
  · exact h t ht
  · split at ht
    · exact h t ht
    · simp only [List.mem_append, List.mem_singleton] at ht
      rcases ht with hmem | hmem
      · exact h t hmem
      · subst hmem
        show ValidToolName (if _ then _ else _)
        split
        · exact validToolName_sanitizeToolName _
        · exact validToolName_fullToolName _ _

theorem fullTools_fold_valid (config : AlbomConfig) (l : List EndpointDescriptor) :
    ∀ acc : List PlannedTool × List String, (∀ t ∈ acc.1, ValidToolName t.name) →
      ∀ t ∈ (l.foldl (fullToolsStep config) acc).1, ValidToolName t.name := by
  induction l with
  | nil => intro acc h t ht; exact h t ht
  | cons e rest ih =>
    intro acc hacc t ht
    rw [List.foldl_cons] at ht
    exact ih (fullToolsStep config acc e)
      (fullToolsStep_preserves_valid config acc e hacc) t ht

theorem makeFullTools_valid (catalog : CatalogState) (config : AlbomConfig) :
    ∀ t ∈ makeFullTools catalog config, ValidToolName t.name := by
  intro t ht
  unfold makeFullTools at ht
  simp only [List.mem_append] at ht
  rcases ht with hmem | hmem
  · refine fullTools_fold_valid config catalog.endpoints
      ([catalogGetTool], [catalogGetTool.name]) ?_ t hmem
    intro t' ht'
    rw [List.mem_singleton] at ht'
    subst ht'
    decide
  · cases hraw : config.allowRawTool
    · rw [hraw] at hmem
      simp at hmem
    · rw [hraw] at hmem
      simp at hmem
      subst hmem
      decide

theorem fullToolsStep_push (config : AlbomConfig) (acc : List PlannedTool × List String)
    (e : EndpointDescriptor) (h1 : e.method = "POST")
    (hi : shouldIncludeFullEndpoint e config = true)
    (hcont : acc.2.contains (fullToolName e.apiKey e.path) = false) :
    fullToolsStep config acc e =
      (acc.1 ++ [fullEndpointTool e (fullToolName e.apiKey e.path)],
       acc.2 ++ [fullToolName e.apiKey e.path]) := by
  unfold fullToolsStep
  rw [if_neg (by simp [h1]), if_neg (by simp [hi])]
  have hmem : fullToolName e.apiKey e.path ∉ acc.2 := by simpa using hcont
  simp [hmem]

theorem fullToolsStep_push_collision (config : AlbomConfig)
    (acc : List PlannedTool × List String) (e : EndpointDescriptor)
    (h1 : e.method = "POST") (hi : shouldIncludeFullEndpoint e config = true)
    (hcont : acc.2.contains (fullToolName e.apiKey e.path) = true) :
    fullToolsStep config acc e =
      (acc.1 ++ [fullEndpointTool e (sanitizeToolName (fullToolName e.apiKey e.path ++ "_post"))],
       acc.2 ++ [sanitizeToolName (fullToolName e.apiKey e.path ++ "_post")]) := by
  unfold fullToolsStep
  rw [if_neg (by simp [h1]), if_neg (by simp [hi])]
  have hname : fullToolName e.apiKey e.path ++ "_" ++ jsToLower e.method =
      fullToolName e.apiKey e.path ++ "_post" := by
    rw [h1, String.append_assoc]
    rfl
  have hmem : fullToolName e.apiKey e.path ∈ acc.2 := by simpa using hcont
  simp [hmem, hname]

theorem makeFullTools_two_collision (config : AlbomConfig) (e1 e2 : EndpointDescriptor)
    (hraw : config.allowRawTool = false)
    (h1 : e1.method = "POST") (h2 : e2.method = "POST")
    (hi1 : shouldIncludeFullEndpoint e1 config = true)
    (hi2 : shouldIncludeFullEndpoint e2 config = true)
    (hcoll : fullToolName e2.apiKey e2.path = fullToolName e1.apiKey e1.path)
    (hnc : fullToolName e1.apiKey e1.path ≠ "albom_catalog_get") :
    (makeFullTools { endpoints := [e1, e2] } config).map (fun t => t.name) =
      ["albom_catalog_get", fullToolName e1.apiKey e1.path,
       sanitizeToolName (fullToolName e1.apiKey e1.path ++ "_post")] := by
  unfold makeFullTools
  show ((List.foldl (fullToolsStep config) ([catalogGetTool], [catalogGetTool.name])
      [e1, e2]).1 ++ (if config.allowRawTool = true then [rawCallTool] else [])).map
      (fun t => t.name) = _
  rw [List.foldl_cons]
  rw [fullToolsStep_push config ([catalogGetTool], [catalogGetTool.name]) e1 h1 hi1
    (by simpa [catalogGetTool] using fun h => hnc h)]
  rw [List.foldl_cons]
  have hcont2 : (([catalogGetTool.name] ++ [fullToolName e1.apiKey e1.path]).contains
      (fullToolName e2.apiKey e2.path)) = true := by
    rw [hcoll]
    simp
  rw [fullToolsStep_push_collision config _ e2 h2 hi2 hcont2]
  rw [List.foldl_nil, hraw]
  simp [catalogGetTool, fullEndpointTool, hcoll]

def c9FooDash : EndpointDescriptor :=
  { apiKey := "openai", apiName := "OpenAI", path := "/v1/foo-bar", method := "POST",
    priceType := .flat, description := "d1", contentType := .json, models := [],
    fileField := none, family := "foo" }

def c9FooDot : EndpointDescriptor :=
  { apiKey := "openai", apiName := "OpenAI", path := "/v1/foo.bar", method := "POST",
    priceType := .flat, description := "d2", contentType := .json, models := [],
    fileField := none, family := "foo" }

def c9FooUnderscore : EndpointDescriptor :=
  { apiKey := "openai", apiName := "OpenAI", path := "/v1/foo_bar", method := "POST",
    priceType := .flat, description := "d3", contentType := .json, models := [],
    fileField := none, family := "foo" }

def c9Config : AlbomConfig :=
  { toolProfile := .full, includeModeration := true, includeEmbeddings := true,
    includeVideo := true, allowRawTool := false }

def c9CompactConfig : AlbomConfig :=
  { toolProfile := .compact, includeModeration := true, includeEmbeddings := true,
    includeVideo := true, allowRawTool := true }

/-- C9 counterexample: three POST endpoints whose paths all sanitize to the
same base name (`/v1/foo-bar`, `/v1/foo.bar`, `/v1/foo_bar`) make the full
profile emit a duplicate tool name — the method suffix is applied to the
second and the third collision alike, and the suffixed name is not checked
for freshness again. -/
theorem claim_C9_counterexample :
    (buildToolState { endpoints := [c9FooDash, c9FooDot, c9FooUnderscore] } c9Config).tools.map
        (fun t => t.name) =
      ["albom_catalog_get", "albom_openai_foo_bar", "albom_openai_foo_bar_post",
       "albom_openai_foo_bar_post"] ∧
    ¬ (((buildToolState { endpoints := [c9FooDash, c9FooDot, c9FooUnderscore] }
          c9Config).tools.map (fun t => t.name)).Nodup) := by
  constructor
  · decide
  · decide

/-- C9 (amended): every tool name produced by `buildToolState` satisfies the
allowed-character constraint; compact-profile names are always pairwise
unique; in the full profile a first name collision is broken by appending
the lowercased method as a suffix — but the suffixed name is not re-checked,
so uniqueness holds only while suffixed names stay fresh. -/
theorem claim_C9_amended_names :
    (∀ (catalog : CatalogState) (config : AlbomConfig),
      ∀ t ∈ (buildToolState catalog config).tools, ValidToolName t.name) ∧
    (∀ (catalog : CatalogState) (config : AlbomConfig),
      config.toolProfile = .compact →
      (((buildToolState catalog config).tools.map (fun t => t.name)).Nodup)) ∧
    (∀ (config : AlbomConfig) (e1 e2 : EndpointDescriptor),
      config.toolProfile = .full → config.allowRawTool = false →
      e1.method = "POST" → e2.method = "POST" →
      shouldIncludeFullEndpoint e1 config = true →
      shouldIncludeFullEndpoint e2 config = true →
      fullToolName e2.apiKey e2.path = fullToolName e1.apiKey e1.path →
      fullToolName e1.apiKey e1.path ≠ "albom_catalog_get" →
      (buildToolState { endpoints := [e1, e2] } config).tools.map (fun t => t.name) =
        ["albom_catalog_get", fullToolName e1.apiKey e1.path,
         sanitizeToolName (fullToolName e1.apiKey e1.path ++ "_post")]) := by
  refine ⟨?_, ?_, ?_⟩
  · intro catalog config t ht
    cases hp : config.toolProfile with
    | compact =>
      rw [show (buildToolState catalog config).tools = makeCompactTools catalog config by
        simp [buildToolState, hp]] at ht
      have hsub := (compact_names_sublist catalog config).subset
      have hmem : t.name ∈ compactFixedNames :=
        hsub (List.mem_map_of_mem (fun t => t.name) ht)
      have hall : ∀ n ∈ compactFixedNames, ValidToolName n := by decide
      exact hall t.name hmem
    | full =>
      rw [show (buildToolState catalog config).tools = makeFullTools catalog config by
        simp [buildToolState, hp]] at ht
      exact makeFullTools_valid catalog config t ht
  · intro catalog config hp
    rw [show (buildToolState catalog config).tools = makeCompactTools catalog config by
      simp [buildToolState, hp]]
    exact compact_names_nodup catalog config
  · intro config e1 e2 hp hraw h1 h2 hi1 hi2 hcoll hnc
    rw [show (buildToolState { endpoints := [e1, e2] } config).tools =
        makeFullTools { endpoints := [e1, e2] } config by simp [buildToolState, hp]]
    exact makeFullTools_two_collision config e1 e2 hraw h1 h2 hi1 hi2 hcoll hnc

/-- Witness for C9 (amended): compact names on a concrete catalog are
unique, and a concrete two-endpoint collision gets the method suffix. -/
theorem claim_C9_amended_names_witness :
    (((buildToolState { endpoints := [] } c9CompactConfig).tools.map
        (fun t => t.name)).Nodup) ∧
    ((buildToolState { endpoints := [c9FooDash, c9FooDot] } c9Config).tools.map
        (fun t => t.name) =
      ["albom_catalog_get", "albom_openai_foo_bar", "albom_openai_foo_bar_post"]) := by
  constructor
  · exact claim_C9_amended_names.2.1 { endpoints := [] } c9CompactConfig rfl
  · rw [claim_C9_amended_names.2.2 c9Config c9FooDash c9FooDot rfl rfl rfl rfl
      (by decide) (by decide) (by decide) (by decide)]
    decide

/-! ## Claim C7: L402 challenge parsing -/

/-- C7: the documented header/body example parses to the expected challenge;
a trailing colon on the macaroon is stripped; and parsing yields no
challenge whenever the `www-authenticate` header is absent, the scheme is
not L402, no macaroon/token parameter resolves, or no invoice resolves from
header or body. -/
theorem claim_C7_parse_l402 :
    (parseL402Challenge
        [("www-authenticate", "L402 macaroon=\"mac_abc123\", invoice=\"lnbc100n\"")]
        (JValue.obj [("payment_hash", JValue.str "ph_001"),
                     ("amount_sats", JValue.num 30)]) =
      some { macaroon := "mac_abc123", invoice := "lnbc100n",
             paymentHash := "ph_001", amountSats := 30 }) ∧
    ((parseL402Challenge
        [("www-authenticate", "L402 macaroon=\"mac_test:\"")]
        (JValue.obj [("invoice", JValue.str "lnbc300n"),
                     ("payment_hash", JValue.str "ph_003"),
                     ("amount_sats", JValue.num 10)])).map (fun ch => ch.macaroon) =
      some "mac_test") ∧
    (∀ (headers : List (String × String)) (body : JValue),
      recordGet headers "www-authenticate" = none →
      parseL402Challenge headers body = none) ∧
    (∀ (headers : List (String × String)) (body : JValue) (wwwAuth : String),
      recordGet headers "www-authenticate" = some wwwAuth →
      matchL402Scheme wwwAuth.toList = none →
      parseL402Challenge headers body = none) ∧
    (∀ (headers : List (String × String)) (body : JValue) (wwwAuth : String)
       (paramChars : List Char),
      recordGet headers "www-authenticate" = some wwwAuth → wwwAuth ≠ "" →
      matchL402Scheme wwwAuth.toList = some paramChars →
      extractParam (String.mk paramChars) "macaroon" = none →
      extractParam (String.mk paramChars) "token" = none →
      parseL402Challenge headers body = none) ∧
    (∀ (headers : List (String × String)) (body : JValue) (wwwAuth : String)
       (paramChars : List Char),
      recordGet headers "www-authenticate" = some wwwAuth → wwwAuth ≠ "" →
      matchL402Scheme wwwAuth.toList = some paramChars →
      extractParam (String.mk paramChars) "invoice" = none →
      asString (jget ((asRecordFields body).getD []) "invoice") = none →
      parseL402Challenge headers body = none) := by
  refine ⟨by decide, by decide, ?_, ?_, ?_, ?_⟩
  · intro headers body h
    simp [parseL402Challenge, h]
  · intro headers body wwwAuth h1 h2
    simp only [String.toList] at h2
    by_cases he : wwwAuth = ""
    · simp [parseL402Challenge, h1, he]
    · simp only [parseL402Challenge, h1, String.toList, if_neg he, h2]
  · intro headers body wwwAuth paramChars h1 hne h2 hmac htok
    simp only [String.toList] at h2
    have hmt : (extractParam (String.mk paramChars) "macaroon").orElse
        (fun _ => extractParam (String.mk paramChars) "token") = none := by
      simp [hmac, htok]
    simp only [parseL402Challenge, h1, String.toList, if_neg hne, h2, hmt]
  · intro headers body wwwAuth paramChars h1 hne h2 hinv hbody
    simp only [String.toList] at h2
    have hinvoice : (extractParam (String.mk paramChars) "invoice").orElse
        (fun _ => asString (jget ((asRecordFields body).getD []) "invoice")) = none := by
      simp [hinv, hbody]
    simp only [parseL402Challenge, h1, String.toList, if_neg hne, h2, hinvoice]
    cases hm : (extractParam (String.mk paramChars) "macaroon").orElse
        (fun _ => extractParam (String.mk paramChars) "token") with
    | none => rfl
    | some m =>
      by_cases hm0 : m = ""
      · simp [hm0]
      · simp [hm0]

/-- Witness for C7 at concrete no-challenge inputs: empty headers, a
Bearer-scheme header, an L402 header without macaroon, and an L402 header
without invoice each yield no challenge. -/
theorem claim_C7_parse_l402_witness :
    parseL402Challenge [] JValue.null = none ∧
    parseL402Challenge [("www-authenticate", "Bearer realm=test")] (JValue.obj []) = none ∧
    parseL402Challenge [("www-authenticate", "L402 foo=bar")]
      (JValue.obj [("invoice", JValue.str "lnbc")]) = none ∧
    parseL402Challenge [("www-authenticate", "L402 macaroon=\"mac\"")] (JValue.obj []) = none := by
  refine ⟨?_, ?_, ?_, ?_⟩
  · exact claim_C7_parse_l402.2.2.1 [] JValue.null rfl
  · exact claim_C7_parse_l402.2.2.2.1 [("www-authenticate", "Bearer realm=test")]
      (JValue.obj []) "Bearer realm=test" rfl (by decide)
  · exact claim_C7_parse_l402.2.2.2.2.1 [("www-authenticate", "L402 foo=bar")]
      (JValue.obj [("invoice", JValue.str "lnbc")]) "L402 foo=bar" "foo=bar".toList
      rfl (by decide) (by decide) (by decide) (by decide)
  · exact claim_C7_parse_l402.2.2.2.2.2 [("www-authenticate", "L402 macaroon=\"mac\"")]
      (JValue.obj []) "L402 macaroon=\"mac\"" "macaroon=\"mac\"".toList
      rfl (by decide) (by decide) (by decide) (by decide)

/-! ## Claims C1-C3: retry-loop structure lemmas -/

/-- An attempt outcome that the loop may follow with a backoff retry: a
thrown fetch, or a response with a retryable (429/5xx) status. -/
def retryCondition : FetchOutcome → Prop
  | .exn _ => True
  | .ok r => isRetryableStatus r.status = true

theorem autoPayOutcome_fetches (env : HttpEnv) (resp : HttpResp) :
    (autoPayOutcome env resp).loopFetches = 1 ∧ (autoPayOutcome env resp).delays = [] := by
  unfold autoPayOutcome
  cases hparse : parseL402Challenge resp.headers resp.data with
  | none => exact ⟨rfl, rfl⟩
  | some ch =>
    dsimp only
    cases hpay : env.pay ch with
    | none => exact ⟨rfl, rfl⟩
    | some pre =>
      dsimp only
      cases hreplay : env.replay (buildL402Authorization ch.macaroon pre) with
      | ok r2 => exact ⟨rfl, rfl⟩
      | exn b => exact ⟨rfl, rfl⟩

theorem runLoop_exn_cons (h : Bool) (env : HttpEnv) (b : Bool)
    (rest : List FetchOutcome) (idx : Nat) (hne : rest ≠ []) :
    runLoop h env (.exn b :: rest) idx =
      { runLoop h env rest (idx + 1) with
        loopFetches := (runLoop h env rest (idx + 1)).loopFetches + 1,
        delays := backoffMs env.jitter idx :: (runLoop h env rest (idx + 1)).delays } := by
  have hie : rest.isEmpty = false := by
    cases rest with
    | nil => exact absurd rfl hne
    | cons x xs => rfl
  conv_lhs => rw [runLoop]
  rw [hie]
  rfl

theorem runLoop_exn_nil (h : Bool) (env : HttpEnv) (b : Bool) (idx : Nat) :
    runLoop h env [.exn b] idx =
      { result := .error (networkErrorOf b), loopFetches := 1,
        replayFetches := 0, replayAuth := none, delays := [] } := by
  conv_lhs => rw [runLoop]
  rfl

theorem runLoop_ok_402 (h : Bool) (env : HttpEnv) (r : HttpResp)
    (rest : List FetchOutcome) (idx : Nat) (h402 : r.status = 402) (hh : h = true) :
    runLoop h env (.ok r :: rest) idx = autoPayOutcome env r := by
  conv_lhs => rw [runLoop]
  rw [if_pos ⟨h402, hh⟩]

theorem runLoop_ok_retry (h : Bool) (env : HttpEnv) (r : HttpResp)
    (rest : List FetchOutcome) (idx : Nat)
    (hret : isRetryableStatus r.status = true) (hne : rest ≠ []) :
    runLoop h env (.ok r :: rest) idx =
      { runLoop h env rest (idx + 1) with
        loopFetches := (runLoop h env rest (idx + 1)).loopFetches + 1,
        delays := backoffMs env.jitter idx :: (runLoop h env rest (idx + 1)).delays } := by
  have hcond : ¬(r.status = 402 ∧ h = true) := by
    rintro ⟨h402, _⟩
    rw [h402] at hret
    simp [isRetryableStatus] at hret
  have hie : rest.isEmpty = false := by
    cases rest with
    | nil => exact absurd rfl hne
    | cons x xs => rfl
  conv_lhs => rw [runLoop]
  rw [if_neg hcond, if_pos ⟨hret, hie⟩]

theorem runLoop_ok_final (h : Bool) (env : HttpEnv) (r : HttpResp)
    (rest : List FetchOutcome) (idx : Nat)
    (hcond : ¬(r.status = 402 ∧ h = true)) (hret : isRetryableStatus r.status = false) :
    runLoop h env (.ok r :: rest) idx =
      { result := .ok r, loopFetches := 1, replayFetches := 0,
        replayAuth := none, delays := [] } := by
  conv_lhs => rw [runLoop]
  rw [if_neg hcond, if_neg (by simp [hret])]

theorem runLoop_ok_cons_nil (h : Bool) (env : HttpEnv) (r : HttpResp) (idx : Nat)
    (hcond : ¬(r.status = 402 ∧ h = true)) :
    runLoop h env [.ok r] idx =
      { result := .ok r, loopFetches := 1, replayFetches := 0,
        replayAuth := none, delays := [] } := by
  conv_lhs => rw [runLoop]
  rw [if_neg hcond, if_neg (by simp)]

/-- Combined structural facts about the retry loop: the attempt budget, the
positivity of the attempt count, the shape of the backoff-delay trace, and
that only retryable outcomes are ever followed by another attempt. -/
theorem runLoop_spec (h : Bool) (env : HttpEnv) :
    ∀ (outs : List FetchOutcome) (idx : Nat),
      (runLoop h env outs idx).loopFetches ≤ outs.length ∧
      (outs ≠ [] → 1 ≤ (runLoop h env outs idx).loopFetches) ∧
      ((runLoop h env outs idx).delays =
        (List.range ((runLoop h env outs idx).loopFetches - 1)).map
          (fun k => backoffMs env.jitter (idx + k))) ∧
      (∀ j, j + 1 < (runLoop h env outs idx).loopFetches →
        retryCondition (outs.getD j (.exn false))) := by
  intro outs
  induction outs with
  | nil =>
    intro idx
    refine ⟨by simp [runLoop], by intro hc; exact absurd rfl hc, by simp [runLoop], ?_⟩
    intro j hj
    simp [runLoop] at hj
  | cons o rest ih =>
    intro idx
    have step :
        ∀ (req : runLoop h env (o :: rest) idx =
          { runLoop h env rest (idx + 1) with
            loopFetches := (runLoop h env rest (idx + 1)).loopFetches + 1,
            delays := backoffMs env.jitter idx ::
              (runLoop h env rest (idx + 1)).delays }),
        rest ≠ [] → retryCondition o →
        (runLoop h env (o :: rest) idx).loopFetches ≤ (o :: rest).length ∧
        (o :: rest ≠ [] → 1 ≤ (runLoop h env (o :: rest) idx).loopFetches) ∧
        ((runLoop h env (o :: rest) idx).delays =
          (List.range ((runLoop h env (o :: rest) idx).loopFetches - 1)).map
            (fun k => backoffMs env.jitter (idx + k))) ∧
        (∀ j, j + 1 < (runLoop h env (o :: rest) idx).loopFetches →
          retryCondition ((o :: rest).getD j (.exn false))) := by
      intro req hne hcond
      obtain ⟨ih1, ih2, ih3, ih4⟩ := ih (idx + 1)
      have hpos := ih2 hne
      have e1 : (runLoop h env (o :: rest) idx).loopFetches =
          (runLoop h env rest (idx + 1)).loopFetches + 1 := by rw [req]
      have e2 : (runLoop h env (o :: rest) idx).delays =
          backoffMs env.jitter idx :: (runLoop h env rest (idx + 1)).delays := by rw [req]
      refine ⟨?_, ?_, ?_, ?_⟩
      · rw [e1]
        simp only [List.length_cons]
        omega
      · intro _
        rw [e1]
        omega
      · rw [e2, e1]
        obtain ⟨m, hm⟩ : ∃ m, (runLoop h env rest (idx + 1)).loopFetches = m + 1 :=
          ⟨(runLoop h env rest (idx + 1)).loopFetches - 1, by omega⟩
        rw [ih3, hm]
        simp only [Nat.add_sub_cancel, List.range_succ_eq_map, List.map_cons,
          List.map_map, Nat.add_zero]
        congr 1
        apply List.map_congr_left
        intro k _
        simp only [Function.comp]
        congr 1
        omega
      · intro j hj
        rw [e1] at hj
        cases j with
        | zero => simpa using hcond
        | succ j' =>
          rw [List.getD_cons_succ]
          exact ih4 j' (by omega)
    match o with
    | .exn b =>
      by_cases hne : rest = []
      · subst hne
        have heq := runLoop_exn_nil h env b idx
        refine ⟨?_, ?_, ?_, ?_⟩
        · rw [heq]
          exact Nat.le_refl 1
        · intro _
          rw [heq]
        · rw [heq]
          rfl
        · intro j hj
          rw [heq] at hj
          dsimp only at hj
          omega
      · exact step (runLoop_exn_cons h env b rest idx hne) hne trivial
    | .ok r =>
      by_cases hcond : r.status = 402 ∧ h = true
      · have heq := runLoop_ok_402 h env r rest idx hcond.1 hcond.2
        obtain ⟨hf, hd⟩ := autoPayOutcome_fetches env r
        refine ⟨?_, ?_, ?_, ?_⟩
        · rw [heq, hf]
          exact Nat.succ_le_succ (Nat.zero_le _)
        · intro _
          rw [heq, hf]
        · rw [heq, hf, hd]
          rfl
        · intro j hj
          rw [heq, hf] at hj
          omega
      · by_cases hret : isRetryableStatus r.status = true
        · by_cases hne : rest = []
          · subst hne
            have heq := runLoop_ok_cons_nil h env r idx hcond
            refine ⟨?_, ?_, ?_, ?_⟩
            · rw [heq]
              exact Nat.le_refl 1
            · intro _
              rw [heq]
            · rw [heq]
              rfl
            · intro j hj
              rw [heq] at hj
              dsimp only at hj
              omega
          · exact step (runLoop_ok_retry h env r rest idx hret hne) hne hret
        · have heq := runLoop_ok_final h env r rest idx hcond
            (Bool.eq_false_iff.mpr hret)
          refine ⟨?_, ?_, ?_, ?_⟩
          · rw [heq]
            exact Nat.succ_le_succ (Nat.zero_le _)
          · intro _
            rw [heq]
          · rw [heq]
            rfl
          · intro j hj
            rw [heq] at hj
            dsimp only at hj
            omega

/-- Unrolling the loop across a run of retryable attempts: after `i`
retryable outcomes the loop continues on the remaining attempts, having
consumed `i` fetches and slept `i` backoff delays. -/
theorem runLoop_reach (h : Bool) (env : HttpEnv) :
    ∀ (i : Nat) (outs : List FetchOutcome) (idx : Nat),
      i < outs.length →
      (∀ j, j < i → retryCondition (outs.getD j (.exn false))) →
      runLoop h env outs idx =
        { runLoop h env (outs.drop i) (idx + i) with
          loopFetches := (runLoop h env (outs.drop i) (idx + i)).loopFetches + i,
          delays := ((List.range i).map (fun k => backoffMs env.jitter (idx + k))) ++
            (runLoop h env (outs.drop i) (idx + i)).delays } := by
  intro i
  induction i with
  | zero =>
    intro outs idx _ _
    simp
  | succ i' ih =>
    intro outs idx hlen hreach
    match outs with
    | [] => simp at hlen
    | o :: rest =>
      have hrest : i' < rest.length := by
        simp only [List.length_cons] at hlen
        omega
      have hne : rest ≠ [] := by
        apply List.length_pos.mp
        omega
      have hreach' : ∀ j, j < i' → retryCondition (rest.getD j (.exn false)) := by
        intro j hj
        have := hreach (j + 1) (by omega)
        rwa [List.getD_cons_succ] at this
      have hcond0 : retryCondition o := by
        have := hreach 0 (by omega)
        simpa using this
      have hrec := ih rest (idx + 1) hrest hreach'
      have hshift : ∀ k, backoffMs env.jitter (idx + 1 + k) =
          backoffMs env.jitter (idx + (k + 1)) := by
        intro k
        congr 1
        omega
      have hstep :
          runLoop h env (o :: rest) idx =
            { runLoop h env rest (idx + 1) with
              loopFetches := (runLoop h env rest (idx + 1)).loopFetches + 1,
              delays := backoffMs env.jitter idx ::
                (runLoop h env rest (idx + 1)).delays } := by
        match o with
        | .exn b => exact runLoop_exn_cons h env b rest idx hne
        | .ok r =>
          have hret : isRetryableStatus r.status = true := hcond0
          exact runLoop_ok_retry h env r rest idx hret hne
      rw [hstep, hrec]
      rw [show idx + (i' + 1) = idx + 1 + i' by omega]
      simp only [List.drop_succ_cons]
      simp only [RunOutcome.mk.injEq, true_and, and_true]
      refine ⟨by omega, ?_⟩
      rw [List.range_succ_eq_map, List.map_cons, List.map_map, Nat.add_zero,
        List.cons_append]
      congr 2
      apply List.map_congr_left
      intro k _
      simp only [Function.comp]
      exact hshift k

/-- Reading the `j`-th element of the environment-driven attempt list. -/
theorem getD_range_map {α : Type} (f : Nat → α) (m j : Nat) (hj : j < m) (d : α) :
    ((List.range m).map f).getD j d = f j := by
  rw [List.getD_eq_getElem?_getD, List.getElem?_map, List.getElem?_range hj]
  rfl

/-- Dropping `i` attempts exposes the `i`-th environment outcome as the head. -/
theorem drop_range_map {α : Type} (f : Nat → α) (m i : Nat) (hi : i < m) :
    ((List.range m).map f).drop i = f i :: ((List.range m).map f).drop (i + 1) := by
  have h1 : i < ((List.range m).map f).length := by simpa using hi
  rw [List.drop_eq_getElem_cons h1]
  simp

/-- Bounds on one backoff delay: with the random draw in `[0, 1)` the rounded
delay lies between the exponential base `200 · 2 ^ attempt` and that base
plus the 80ms jitter cap. -/
theorem backoffMs_bounds (jitter : Nat → ℚ) (k : Nat)
    (h0 : 0 ≤ jitter k) (h1 : jitter k < 1) :
    (200 : ℤ) * 2 ^ k ≤ backoffMs jitter k ∧
      backoffMs jitter k ≤ 200 * 2 ^ k + 80 := by
  unfold backoffMs
  rw [round_eq]
  constructor
  · apply Int.le_floor.mpr
    push_cast
    linarith
  · have hlt : (200 : ℚ) * 2 ^ k + jitter k * 80 + 1 / 2 <
        ((200 * 2 ^ k + 80 + 1 : ℤ) : ℚ) := by
      push_cast
      linarith
  -- the exact bound follows by reading back the floor
    exact Int.lt_add_one_iff.mp (Int.floor_lt.mpr hlt)

/-- Statuses 400/401/402/404/413 are outside the 429/5xx retryable class. -/
theorem nonRetryable_of_clientStatus (s : Nat)
    (h : s = 400 ∨ s = 401 ∨ s = 402 ∨ s = 404 ∨ s = 413) :
    isRetryableStatus s = false := by
  rcases h with h | h | h | h | h <;> subst h <;> decide

/-- C1: every call makes at most `maxRetries + 1` retry-loop attempts; an
attempt is followed by another only when it threw or returned 429/5xx; the
backoff trace has exactly one delay per retry, the `k`-th lying in
`[200 · 2 ^ k, 200 · 2 ^ k + 80]` when the random draws lie in `[0, 1)`; and
a reachable response with status 400, 401, 402, 404 or 413 (402 taken
without an auto-pay handler) ends the loop immediately, after `i + 1`
fetches, with that response as the final result. -/
theorem claim_C1_retry_policy (opts : HttpClientOptions) (env : HttpEnv)
    (hjit : ∀ k, 0 ≤ env.jitter k ∧ env.jitter k < 1) :
    (requestWithRetries opts env).loopFetches ≤ opts.maxRetries + 1 ∧
    (∀ j, j + 1 < (requestWithRetries opts env).loopFetches →
      retryCondition (env.attempts j)) ∧
    ((requestWithRetries opts env).delays =
      (List.range ((requestWithRetries opts env).loopFetches - 1)).map
        (fun k => backoffMs env.jitter k)) ∧
    (∀ k, k < (requestWithRetries opts env).delays.length →
      (200 : ℤ) * 2 ^ k ≤ (requestWithRetries opts env).delays.getD k 0 ∧
      (requestWithRetries opts env).delays.getD k 0 ≤ 200 * 2 ^ k + 80) ∧
    (∀ i r, i ≤ opts.maxRetries →
      (∀ j, j < i → retryCondition (env.attempts j)) →
      env.attempts i = FetchOutcome.ok r →
      (r.status = 400 ∨ r.status = 401 ∨ r.status = 402 ∨ r.status = 404 ∨
        r.status = 413) →
      ¬(r.status = 402 ∧ opts.l402Handler = true) →
      (requestWithRetries opts env).result = Except.ok r ∧
      (requestWithRetries opts env).loopFetches = i + 1) := by
  have hreq : requestWithRetries opts env =
      runLoop opts.l402Handler env
        ((List.range (opts.maxRetries + 1)).map env.attempts) 0 := rfl
  obtain ⟨s1, s2, s3, s4⟩ := runLoop_spec opts.l402Handler env
    ((List.range (opts.maxRetries + 1)).map env.attempts) 0
  have hlen : ((List.range (opts.maxRetries + 1)).map env.attempts).length =
      opts.maxRetries + 1 := by simp
  refine ⟨?_, ?_, ?_, ?_, ?_⟩
  · rw [hreq]
    omega
  · intro j hj
    rw [hreq] at hj
    have hjlt : j < opts.maxRetries + 1 := by omega
    have hj2 := s4 j hj
    rwa [getD_range_map env.attempts (opts.maxRetries + 1) j hjlt
      (FetchOutcome.exn false)] at hj2
  · rw [hreq, s3]
    simp only [Nat.zero_add]
  · intro k hk
    rw [hreq] at hk ⊢
    rw [s3] at hk ⊢
    have hk2 : k < (runLoop opts.l402Handler env
        ((List.range (opts.maxRetries + 1)).map env.attempts)
          0).loopFetches - 1 := by
      simpa using hk
    rw [getD_range_map (fun k => backoffMs env.jitter (0 + k)) _ k hk2 (0 : ℤ)]
    simp only [Nat.zero_add]
    exact backoffMs_bounds env.jitter k (hjit k).1 (hjit k).2
  · intro i r hi hreach hatt hstat hcond
    have hi2 : i < ((List.range (opts.maxRetries + 1)).map env.attempts).length := by
      omega
    have hreach2 : ∀ j, j < i →
        retryCondition
          (((List.range (opts.maxRetries + 1)).map env.attempts).getD j
            (FetchOutcome.exn false)) := by
      intro j hjlt
      rw [getD_range_map env.attempts (opts.maxRetries + 1) j (by omega)
        (FetchOutcome.exn false)]
      exact hreach j hjlt
    have hr := runLoop_reach opts.l402Handler env i
      ((List.range (opts.maxRetries + 1)).map env.attempts) 0 hi2 hreach2
    have hdrop : ((List.range (opts.maxRetries + 1)).map env.attempts).drop i =
        FetchOutcome.ok r ::
          ((List.range (opts.maxRetries + 1)).map env.attempts).drop (i + 1) := by
      rw [drop_range_map env.attempts (opts.maxRetries + 1) i (by omega), hatt]
    have hret : isRetryableStatus r.status = false :=
      nonRetryable_of_clientStatus r.status hstat
    have hfin := runLoop_ok_final opts.l402Handler env r
      (((List.range (opts.maxRetries + 1)).map env.attempts).drop (i + 1))
      (0 + i) hcond hret
    rw [hreq, hr, hdrop, hfin]
    exact ⟨rfl, Nat.add_comm 1 i⟩

def c1Resp500 : HttpResp := { status := 500, headers := [], data := JValue.null }

def c1Resp404 : HttpResp := { status := 404, headers := [], data := JValue.null }

def c1Opts : HttpClientOptions :=
  { baseUrl := "https://albom.example", bearerToken := some "tok",
    l402Handler := false, timeoutMs := 60000, maxRetries := 2 }

def c1Env : HttpEnv :=
  { attempts := fun n => match n with
      | 0 => FetchOutcome.ok c1Resp500
      | _ => FetchOutcome.ok c1Resp404,
    pay := fun _ => none,
    replay := fun _ => FetchOutcome.exn false,
    jitter := fun _ => 0 }

/-- Witness for C1: with `maxRetries = 2`, a 500 on attempt 0 is retried and
the 404 on attempt 1 ends the loop as the final result after exactly two
fetches. -/
theorem claim_C1_retry_policy_witness :
    (∀ k, 0 ≤ c1Env.jitter k ∧ c1Env.jitter k < 1) ∧
    (requestWithRetries c1Opts c1Env).loopFetches ≤ c1Opts.maxRetries + 1 ∧
    (requestWithRetries c1Opts c1Env).result = Except.ok c1Resp404 ∧
    (requestWithRetries c1Opts c1Env).loopFetches = 2 := by
  have hj : ∀ k, 0 ≤ c1Env.jitter k ∧ c1Env.jitter k < 1 := by
    intro k
    exact ⟨le_refl 0, show (0 : ℚ) < 1 by norm_num⟩
  obtain ⟨h1, h2, h3, h4, h5⟩ := claim_C1_retry_policy c1Opts c1Env hj
  have hreach : ∀ j, j < 1 → retryCondition (c1Env.attempts j) := by
    intro j hjlt
    have hj0 : j = 0 := by omega
    subst hj0
    exact rfl
  have h6 := h5 1 c1Resp404 (by decide) hreach rfl
    (Or.inr (Or.inr (Or.inr (Or.inl rfl)))) (by decide)
  refine ⟨hj, h1, h6.1, ?_⟩
  rw [h6.2]

/-- C2: with an auto-pay handler configured, a reachable 402 ends the retry
loop at once (no backoff retry is scheduled for it); the challenge is
parsed and, on a parsed challenge with a successful payment, the request is
replayed exactly once with the L402 authorization header, the replay's
outcome being returned as-is; a throwing replay returns the original 402; a
failed payment or an unparsable challenge returns the original 402 with no
replay fetch. -/
theorem claim_C2_autopay (opts : HttpClientOptions) (env : HttpEnv) (i : Nat)
    (resp : HttpResp)
    (hh : opts.l402Handler = true)
    (hi : i ≤ opts.maxRetries)
    (hreach : ∀ j, j < i → retryCondition (env.attempts j))
    (hatt : env.attempts i = FetchOutcome.ok resp)
    (h402 : resp.status = 402) :
    (requestWithRetries opts env).loopFetches = i + 1 ∧
    (requestWithRetries opts env).delays.length = i ∧
    (∀ ch, parseL402Challenge resp.headers resp.data = some ch →
      (∀ pre, env.pay ch = some pre →
        (requestWithRetries opts env).replayFetches = 1 ∧
        (requestWithRetries opts env).replayAuth =
          some (buildL402Authorization ch.macaroon pre) ∧
        (∀ r2, env.replay (buildL402Authorization ch.macaroon pre) =
            FetchOutcome.ok r2 →
          (requestWithRetries opts env).result = Except.ok r2) ∧
        (∀ b, env.replay (buildL402Authorization ch.macaroon pre) =
            FetchOutcome.exn b →
          (requestWithRetries opts env).result = Except.ok resp)) ∧
      (env.pay ch = none →
        (requestWithRetries opts env).result = Except.ok resp ∧
        (requestWithRetries opts env).replayFetches = 0)) ∧
    (parseL402Challenge resp.headers resp.data = none →
      (requestWithRetries opts env).result = Except.ok resp ∧
      (requestWithRetries opts env).replayFetches = 0) := by
  have hreq : requestWithRetries opts env =
      runLoop opts.l402Handler env
        ((List.range (opts.maxRetries + 1)).map env.attempts) 0 := rfl
  have hlen : ((List.range (opts.maxRetries + 1)).map env.attempts).length =
      opts.maxRetries + 1 := by simp
  have hi2 : i < ((List.range (opts.maxRetries + 1)).map env.attempts).length := by
    omega
  have hreach2 : ∀ j, j < i →
      retryCondition
        (((List.range (opts.maxRetries + 1)).map env.attempts).getD j
          (FetchOutcome.exn false)) := by
    intro j hjlt
    rw [getD_range_map env.attempts (opts.maxRetries + 1) j (by omega)
      (FetchOutcome.exn false)]
    exact hreach j hjlt
  have hdrop : ((List.range (opts.maxRetries + 1)).map env.attempts).drop i =
      FetchOutcome.ok resp ::
        ((List.range (opts.maxRetries + 1)).map env.attempts).drop (i + 1) := by
    rw [drop_range_map env.attempts (opts.maxRetries + 1) i (by omega), hatt]
  have hr := runLoop_reach opts.l402Handler env i
    ((List.range (opts.maxRetries + 1)).map env.attempts) 0 hi2 hreach2
  have hout : requestWithRetries opts env =
      { autoPayOutcome env resp with
        loopFetches := (autoPayOutcome env resp).loopFetches + i,
        delays :=
          ((List.range i).map (fun k => backoffMs env.jitter (0 + k))) ++
            (autoPayOutcome env resp).delays } := by
    rw [hreq, hr, hdrop,
      runLoop_ok_402 opts.l402Handler env resp
        (((List.range (opts.maxRetries + 1)).map env.attempts).drop (i + 1))
        (0 + i) h402 hh]
  obtain ⟨hf1, hd1⟩ := autoPayOutcome_fetches env resp
  have e_res : (requestWithRetries opts env).result =
      (autoPayOutcome env resp).result := by rw [hout]
  have e_rf : (requestWithRetries opts env).replayFetches =
      (autoPayOutcome env resp).replayFetches := by rw [hout]
  have e_ra : (requestWithRetries opts env).replayAuth =
      (autoPayOutcome env resp).replayAuth := by rw [hout]
  refine ⟨?_, ?_, ?_, ?_⟩
  · rw [hout]
    dsimp only
    omega
  · rw [hout]
    dsimp only
    rw [hd1]
    simp
  · intro ch hch
    refine ⟨?_, ?_⟩
    · intro pre hpre
      refine ⟨?_, ?_, ?_, ?_⟩
      · rw [e_rf]
        unfold autoPayOutcome
        rw [hch]
        dsimp only
        rw [hpre]
        dsimp only
        cases hrep : env.replay (buildL402Authorization ch.macaroon pre) with
        | ok r2 => rfl
        | exn b => rfl
      · rw [e_ra]
        unfold autoPayOutcome
        rw [hch]
        dsimp only
        rw [hpre]
        dsimp only
        cases hrep : env.replay (buildL402Authorization ch.macaroon pre) with
        | ok r2 => rfl
        | exn b => rfl
      · intro r2 hrep
        rw [e_res]
        unfold autoPayOutcome
        rw [hch]
        dsimp only
        rw [hpre]
        dsimp only
        rw [hrep]
      · intro b hrep
        rw [e_res]
        unfold autoPayOutcome
        rw [hch]
        dsimp only
        rw [hpre]
        dsimp only
        rw [hrep]
    · intro hpay
      constructor
      · rw [e_res]
        unfold autoPayOutcome
        rw [hch]
        dsimp only
        rw [hpay]
      · rw [e_rf]
        unfold autoPayOutcome
        rw [hch]
        dsimp only
        rw [hpay]
  · intro hparse
    constructor
    · rw [e_res]
      unfold autoPayOutcome
      rw [hparse]
    · rw [e_rf]
      unfold autoPayOutcome
      rw [hparse]

def c2Resp402 : HttpResp :=
  { status := 402,
    headers := [("www-authenticate",
      "L402 macaroon=\"mac_abc123\", invoice=\"lnbc100n\"")],
    data := JValue.obj [("payment_hash", JValue.str "ph_001"),
                        ("amount_sats", JValue.num 30)] }

def c2Resp200 : HttpResp := { status := 200, headers := [], data := JValue.null }

def c2Challenge : L402Challenge :=
  { macaroon := "mac_abc123", invoice := "lnbc100n",
    paymentHash := "ph_001", amountSats := 30 }

def c2Opts : HttpClientOptions :=
  { baseUrl := "https://albom.example", bearerToken := none,
    l402Handler := true, timeoutMs := 60000, maxRetries := 0 }

def c2Env : HttpEnv :=
  { attempts := fun _ => FetchOutcome.ok c2Resp402,
    pay := fun _ => some "preimage_1",
    replay := fun _ => FetchOutcome.ok c2Resp200,
    jitter := fun _ => 0 }

/-- Witness for C2: a 402 carrying a parsable L402 challenge is paid and
replayed once, and the 200 replay outcome is returned. -/
theorem claim_C2_autopay_witness :
    c2Opts.l402Handler = true ∧
    parseL402Challenge c2Resp402.headers c2Resp402.data = some c2Challenge ∧
    (requestWithRetries c2Opts c2Env).loopFetches = 1 ∧
    (requestWithRetries c2Opts c2Env).replayFetches = 1 ∧
    (requestWithRetries c2Opts c2Env).replayAuth =
      some (buildL402Authorization "mac_abc123" "preimage_1") ∧
    (requestWithRetries c2Opts c2Env).result = Except.ok c2Resp200 := by
  have hch : parseL402Challenge c2Resp402.headers c2Resp402.data =
      some c2Challenge := by decide
  obtain ⟨g1, g2, g3, g4⟩ := claim_C2_autopay c2Opts c2Env 0 c2Resp402 rfl
    (Nat.le_refl 0) (fun j hjlt => absurd hjlt (Nat.not_lt_zero j)) rfl rfl
  obtain ⟨gA, gB⟩ := g3 c2Challenge hch
  obtain ⟨w1, w2, w3, w4⟩ := gA "preimage_1" rfl
  exact ⟨rfl, hch, g1, w1, w2, w3 c2Resp200 rfl⟩

/-- C3: `resolveHeaders` applies the fixed authorization precedence —
caller-supplied L402 credentials, then a configured bearer token, then a
configured auto-pay handler (unauthenticated), then the explicit quote
opt-in (unauthenticated) — and when none applies the call fails locally
with the `missing_bearer_token` error (status 401), `postJson` performing
no loop or replay fetch at all. -/
theorem claim_C3_auth_precedence (opts : HttpClientOptions)
    (ro : HttpRequestOptions) :
    (∀ cred, ro.l402Auth = some cred →
      resolveHeaders opts ro = Except.ok [("accept", "*/*"),
        ("authorization",
          buildL402Authorization cred.macaroon cred.preimage)]) ∧
    (ro.l402Auth = none → isTruthyStr opts.bearerToken = true →
      resolveHeaders opts ro = Except.ok [("accept", "*/*"),
        ("authorization", "Bearer " ++ opts.bearerToken.getD "")]) ∧
    (ro.l402Auth = none → isTruthyStr opts.bearerToken = false →
      opts.l402Handler = true →
      resolveHeaders opts ro = Except.ok [("accept", "*/*")]) ∧
    (ro.l402Auth = none → isTruthyStr opts.bearerToken = false →
      opts.l402Handler = false → ro.allowL402Quote = true →
      resolveHeaders opts ro = Except.ok [("accept", "*/*")]) ∧
    (ro.l402Auth = none → isTruthyStr opts.bearerToken = false →
      opts.l402Handler = false → ro.allowL402Quote = false →
      resolveHeaders opts ro = Except.error missingBearerTokenError ∧
      missingBearerTokenError.code = "missing_bearer_token" ∧
      missingBearerTokenError.status = 401 ∧
      (∀ env, postJson opts env ro =
        { result := Except.error missingBearerTokenError, loopFetches := 0,
          replayFetches := 0, replayAuth := none, delays := [] })) := by
  refine ⟨?_, ?_, ?_, ?_, ?_⟩
  · intro cred hc
    simp [resolveHeaders, hc]
  · intro h1 h2
    simp [resolveHeaders, h1, h2]
  · intro h1 h2 h3
    simp [resolveHeaders, h1, h2, h3]
  · intro h1 h2 h3 h4
    simp [resolveHeaders, h1, h2, h3, h4]
  · intro h1 h2 h3 h4
    have hres : resolveHeaders opts ro = Except.error missingBearerTokenError := by
      simp [resolveHeaders, h1, h2, h3, h4]
    refine ⟨hres, rfl, rfl, ?_⟩
    intro env
    unfold postJson
    rw [hres]

def c3Opts : HttpClientOptions :=
  { baseUrl := "https://albom.example", bearerToken := none,
    l402Handler := false, timeoutMs := 60000, maxRetries := 2 }

def c3Ro : HttpRequestOptions := { allowL402Quote := false, l402Auth := none }

def c3Env : HttpEnv :=
  { attempts := fun _ => FetchOutcome.exn false,
    pay := fun _ => none,
    replay := fun _ => FetchOutcome.exn false,
    jitter := fun _ => 0 }

/-- Witness for C3 at a configuration with no credentials, no bearer token,
no auto-pay handler and no quote opt-in: the call fails locally with
`missing_bearer_token` (401) and no fetch of any kind happens. -/
theorem claim_C3_auth_precedence_witness :
    resolveHeaders c3Opts c3Ro = Except.error missingBearerTokenError ∧
    missingBearerTokenError.code = "missing_bearer_token" ∧
    missingBearerTokenError.status = 401 ∧
    postJson c3Opts c3Env c3Ro =
      { result := Except.error missingBearerTokenError, loopFetches := 0,
        replayFetches := 0, replayAuth := none, delays := [] } := by
  obtain ⟨-, -, -, -, h5⟩ := claim_C3_auth_precedence c3Opts c3Ro
  obtain ⟨w1, w2, w3, w4⟩ := h5 rfl rfl rfl rfl
  exact ⟨w1, w2, w3, w4 c3Env⟩

end Albom
